import Mathlib

/-!
# ApplicationSet controller reconciliation (pkg/controller/argocd/applicationset.go)

A shallow embedding of the reconciler of the ApplicationSet controller's child
resources (service account, role, role binding, deployment) and of the TLS
secret fingerprint pass, followed by the properties proved about them.

Conventions of the embedding:

* Go structs are Lean structures with the Go field names; a Go pointer that may
  be nil is an `Option`; a Go slice is a `List`; a Go `map[string]string` is an
  association list read and written through `mapGet` and `mapSet`.
* The Resource Store (the controller-runtime client) is a value `Store` holding
  the objects of the four kinds; a `World` pairs it with the log of the writes
  issued so far. Failures that the store reports for a call are described by
  `Client.fault`. `client.Get` fills the object that the caller hands to it;
  `Client.mode` says whether the client replaces that object by a copy of the
  stored one or decodes the stored one into it.
* A Go run-time panic is the `Outcome.panicked` result.
* Helpers and constants that the file uses from other packages of the
  repository are the fields of `Deps`.
-/

namespace Argocd

/-! ## Errors -/

/-- Go error values that reach the reconciler: a status error answered by the
store, an error built by `fmt.Errorf`, and an error of the owner-reference
helper. -/
inductive GoError where
  | status (reason : String) (message : String)
  | errorf (message : String)
  | ownerRef (message : String)
  deriving DecidableEq, Repr

/-- The text of `err.Error()`. -/
def GoError.Error : GoError → String
  | .status _ message => message
  | .errorf message => message
  | .ownerRef message => message

/-- The test `errors.IsNotFound(err)`: a status error whose reason is `NotFound`. -/
def IsNotFound : GoError → Bool
  | .status reason _ => reason == "NotFound"
  | _ => false

/-- Result of a Go call that may panic instead of returning. -/
inductive Outcome (α : Type) where
  | returned (value : α)
  | panicked (message : String)
  deriving DecidableEq, Repr

/-! ## Kubernetes objects -/

/-- A Go `map[string]string`. -/
abbrev StringMap := List (String × String)

/-- The read `m[k]` with its presence flag. -/
def mapGet (m : StringMap) (k : String) : Option String :=
  match m with
  | [] => none
  | (k', v) :: rest => if k' = k then some v else mapGet rest k

/-- The assignment `m[k] = v`. -/
def mapSet (m : StringMap) (k v : String) : StringMap :=
  match m with
  | [] => [(k, v)]
  | (k', v') :: rest => if k' = k then (k, v) :: rest else (k', v') :: mapSet rest k v

/-- Decoding a map into the map that a field already holds: the entries of the
map held before are kept unless the decoded map has their key. -/
def decodeMapInto (held decoded : StringMap) : StringMap :=
  decoded ++ held.filter (fun kv => (mapGet decoded kv.1).isNone)

structure OwnerReference where
  APIVersion : String
  Kind : String
  Name : String
  UID : String
  Controller : Bool
  BlockOwnerDeletion : Bool
  deriving DecidableEq, Repr

structure ObjectMeta where
  Name : String
  Namespace : String
  Labels : StringMap
  OwnerReferences : List OwnerReference
  deriving DecidableEq, Repr

structure ResourceRequirements where
  Limits : StringMap
  Requests : StringMap
  deriving DecidableEq, Repr

structure ObjectFieldSelector where
  FieldPath : String
  deriving DecidableEq, Repr

structure EnvVarSource where
  FieldRef : Option ObjectFieldSelector
  deriving DecidableEq, Repr

structure EnvVar where
  Name : String
  Value : String
  ValueFrom : Option EnvVarSource
  deriving DecidableEq, Repr

structure VolumeMount where
  Name : String
  MountPath : String
  deriving DecidableEq, Repr

structure Container where
  Name : String
  Image : String
  Command : List String
  Args : List String
  Env : List EnvVar
  ImagePullPolicy : String
  Resources : ResourceRequirements
  VolumeMounts : List VolumeMount
  deriving DecidableEq, Repr

inductive VolumeSource where
  | ConfigMap (name : String)
  | EmptyDir
  | Secret (secretName : String) (optional : Option Bool)
  deriving DecidableEq, Repr

structure Volume where
  Name : String
  VolumeSource : VolumeSource
  deriving DecidableEq, Repr

structure PodSpec where
  ServiceAccountName : String
  Volumes : List Volume
  Containers : List Container
  NodeSelector : StringMap
  deriving DecidableEq, Repr

structure PodTemplateSpec where
  Labels : StringMap
  Spec : PodSpec
  deriving DecidableEq, Repr

structure DeploymentSpec where
  Selector : StringMap
  Template : PodTemplateSpec
  deriving DecidableEq, Repr

structure Deployment where
  ObjectMeta : ObjectMeta
  Spec : DeploymentSpec
  deriving DecidableEq, Repr

structure ServiceAccount where
  ObjectMeta : ObjectMeta
  deriving DecidableEq, Repr

structure PolicyRule where
  APIGroups : List String
  Resources : List String
  Verbs : List String
  deriving DecidableEq, Repr

structure Role where
  ObjectMeta : ObjectMeta
  Rules : List PolicyRule
  deriving DecidableEq, Repr

structure RoleRef where
  APIGroup : String
  Kind : String
  Name : String
  deriving DecidableEq, Repr

structure Subject where
  Kind : String
  APIGroup : String
  Name : String
  Namespace : String
  deriving DecidableEq, Repr

structure RoleBinding where
  ObjectMeta : ObjectMeta
  RoleRef : RoleRef
  Subjects : List Subject
  deriving DecidableEq, Repr

/-! ## The parent resource -/

structure ArgoCDApplicationSet where
  Image : String
  Version : String
  Resources : Option ResourceRequirements
  deriving DecidableEq, Repr

structure ArgoCDSpec where
  ApplicationSet : Option ArgoCDApplicationSet
  deriving DecidableEq, Repr

structure ArgoCDStatus where
  RepoTLSChecksum : String
  deriving DecidableEq, Repr

structure ArgoCD where
  Name : String
  Namespace : String
  UID : String
  Spec : ArgoCDSpec
  Status : ArgoCDStatus
  deriving DecidableEq, Repr

/-! ## What the file uses from the rest of the repository -/

/-- Helpers and constants of other packages of the repository (`common`,
`argoutil`, the constructors of `util.go`) that applicationset.go calls and
that are taken as parameters here. `IsObjectFoundOnError` is the answer of
`argoutil.IsObjectFound` when the read fails with an error other than
not-found. `newRole` is taken to put the slice it is handed into the role
(`Rules: rules`), so that the role and the caller share its backing array. -/
structure Deps where
  newServiceAccountWithName : String → ArgoCD → ServiceAccount
  newRole : String → List PolicyRule → ArgoCD → Role
  newRoleBindingWithname : String → ArgoCD → RoleBinding
  newDeploymentWithSuffix : String → String → ArgoCD → Deployment
  getRepoServerAddress : ArgoCD → String
  CombineImageTag : String → String → String
  IsObjectFoundOnError : Bool
  ArgoCDDefaultApplicationSetImage : String
  ArgoCDDefaultApplicationSetVersion : String
  ArgoCDApplicationSetEnvName : String
  ArgoCDKnownHostsConfigMapName : String
  ArgoCDTLSCertsConfigMapName : String
  ArgoCDGPGKeysConfigMapName : String
  ArgoCDRepoServerTLSSecretName : String

/-! ## getApplicationSetContainerImage -/

/-- The function `getApplicationSetContainerImage`; `getenv` is `os.Getenv`. -/
def getApplicationSetContainerImage (d : Deps) (getenv : String → String) (cr : ArgoCD) : String :=
  let img := ""
  let tag := ""
  -- First pull from spec, if it exists
  let (img, tag) :=
    match cr.Spec.ApplicationSet with
    | some a => (a.Image, a.Version)
    | none => (img, tag)
  -- If spec is empty, use the defaults
  let (img, defaultImg) :=
    if img = "" then (d.ArgoCDDefaultApplicationSetImage, true) else (img, false)
  let (tag, defaultTag) :=
    if tag = "" then (d.ArgoCDDefaultApplicationSetVersion, true) else (tag, false)
  let e := getenv d.ArgoCDApplicationSetEnvName
  if e ≠ "" ∧ (defaultTag = true ∧ defaultImg = true) then e
  else d.CombineImageTag img tag

/-! ## The Resource Store -/

inductive Kind where
  | serviceAccount
  | role
  | roleBinding
  | deployment
  deriving DecidableEq, Repr

inductive Verb where
  | get
  | create
  | update
  deriving DecidableEq, Repr

/-- An object of one of the four managed kinds. -/
inductive Object where
  | serviceAccount (o : ServiceAccount)
  | role (o : Role)
  | roleBinding (o : RoleBinding)
  | deployment (o : Deployment)
  deriving DecidableEq, Repr

/-- A write request issued to the store. -/
inductive Write where
  | create (o : Object)
  | update (o : Object)
  deriving DecidableEq, Repr

/-- The objects the store holds, per kind; an object is found under the
namespace and name of its own metadata. -/
structure Store where
  serviceAccounts : List ServiceAccount
  roles : List Role
  roleBindings : List RoleBinding
  deployments : List Deployment
  deriving DecidableEq, Repr

/-- The store together with the writes issued to it so far, oldest first. -/
structure World where
  store : Store
  writes : List Write
  deriving DecidableEq, Repr

/-- How `client.Get` fills the object that the caller hands to it: a client
that reads from the cache replaces it by a copy of the stored object; a client
that reads from the API server, and the fake client of the tests, decode the
stored object into it. -/
inductive ReadMode where
  | replace
  | decodeInto
  deriving DecidableEq, Repr

/-- The controller-runtime client `r.client`: `fault v k` is the failure, if
any, with which the store answers a call of verb `v` on kind `k`; a call that
is not failed is served from the content of the store; `mode` is the way a
read fills the caller's object. -/
structure Client where
  fault : Verb → Kind → Option GoError
  mode : ReadMode

/-- A map field of the caller's object after a read that found the map
`decoded` for it, `held` being the map of the field before the read. -/
def Client.decodeMap (c : Client) (held decoded : StringMap) : StringMap :=
  match c.mode with
  | ReadMode.replace => decoded
  | ReadMode.decodeInto => decodeMapInto held decoded

/-- The content of the backing array of a slice field after a read that found
the list `decoded` for that field, `held` being its content before: a client
that decodes into the caller's object writes the decoded elements into the
array from index 0 for as long as they fit (each element is taken to be
written whole), and a client that replaces the object leaves the array
alone. -/
def Client.backingArrayAfterRead {α : Type} (c : Client) (held decoded : List α) : List α :=
  match c.mode with
  | ReadMode.replace => held
  | ReadMode.decodeInto => decoded.take held.length ++ held.drop decoded.length

/-- The metadata of the caller's object after a read that found `stored`: the
labels are those of `Client.decodeMap`, the other fields read as stored. -/
def Client.decodeObjectMeta (c : Client) (obj stored : ObjectMeta) : ObjectMeta :=
  { stored with Labels := c.decodeMap obj.Labels stored.Labels }

/-- The caller's service account after a read that found `stored`. -/
def Client.decodeServiceAccount (c : Client) (obj stored : ServiceAccount) : ServiceAccount :=
  { ObjectMeta := c.decodeObjectMeta obj.ObjectMeta stored.ObjectMeta }

/-- The caller's role after a read that found `stored`; the rules read as
stored (what the read does to the backing array that `obj.Rules` had is
`Client.backingArrayAfterRead`). -/
def Client.decodeRole (c : Client) (obj stored : Role) : Role :=
  { ObjectMeta := c.decodeObjectMeta obj.ObjectMeta stored.ObjectMeta, Rules := stored.Rules }

/-- The caller's role binding after a read that found `stored`. -/
def Client.decodeRoleBinding (c : Client) (obj stored : RoleBinding) : RoleBinding :=
  { ObjectMeta := c.decodeObjectMeta obj.ObjectMeta stored.ObjectMeta,
    RoleRef := stored.RoleRef,
    Subjects := stored.Subjects }

/-- The caller's deployment after a read that found `stored`: every map of the
object is that of `Client.decodeMap`, the slices read as stored. -/
def Client.decodeDeployment (c : Client) (obj stored : Deployment) : Deployment :=
  { ObjectMeta := c.decodeObjectMeta obj.ObjectMeta stored.ObjectMeta,
    Spec :=
      { Selector := c.decodeMap obj.Spec.Selector stored.Spec.Selector,
        Template :=
          { Labels := c.decodeMap obj.Spec.Template.Labels stored.Spec.Template.Labels,
            Spec :=
              { stored.Spec.Template.Spec with
                NodeSelector := c.decodeMap obj.Spec.Template.Spec.NodeSelector
                  stored.Spec.Template.Spec.NodeSelector } } } }

/-- How a kind of object is kept in the store and read from it. -/
class Resource (α : Type) where
  kind : Kind
  plural : String
  objectMeta : α → ObjectMeta
  items : Store → List α
  setItems : Store → List α → Store
  wrap : α → Object
  decode : Client → α → α → α

instance instResourceServiceAccount : Resource ServiceAccount where
  kind := Kind.serviceAccount
  plural := "serviceaccounts"
  objectMeta := ServiceAccount.ObjectMeta
  items := Store.serviceAccounts
  setItems := fun s xs => { s with serviceAccounts := xs }
  wrap := Object.serviceAccount
  decode := Client.decodeServiceAccount

instance instResourceRole : Resource Role where
  kind := Kind.role
  plural := "roles.rbac.authorization.k8s.io"
  objectMeta := Role.ObjectMeta
  items := Store.roles
  setItems := fun s xs => { s with roles := xs }
  wrap := Object.role
  decode := Client.decodeRole

instance instResourceRoleBinding : Resource RoleBinding where
  kind := Kind.roleBinding
  plural := "rolebindings.rbac.authorization.k8s.io"
  objectMeta := RoleBinding.ObjectMeta
  items := Store.roleBindings
  setItems := fun s xs => { s with roleBindings := xs }
  wrap := Object.roleBinding
  decode := Client.decodeRoleBinding

instance instResourceDeployment : Resource Deployment where
  kind := Kind.deployment
  plural := "deployments.apps"
  objectMeta := Deployment.ObjectMeta
  items := Store.deployments
  setItems := fun s xs => { s with deployments := xs }
  wrap := Object.deployment
  decode := Client.decodeDeployment

/-- Whether metadata `m` is that of the object named `name` in namespace `ns`. -/
def hasKey (ns name : String) (m : ObjectMeta) : Bool :=
  decide (m.Namespace = ns ∧ m.Name = name)

/-- The first object stored under a namespace and name. -/
def findObject {α : Type} (objectMeta : α → ObjectMeta) (ns name : String) : List α → Option α
  | [] => none
  | y :: ys => if hasKey ns name (objectMeta y) then some y else findObject objectMeta ns name ys

/-- Replaces the object stored under the key of `x` by `x`. -/
def replaceObject {α : Type} (objectMeta : α → ObjectMeta) (x : α) : List α → List α
  | [] => []
  | y :: ys =>
    if hasKey (objectMeta x).Namespace (objectMeta x).Name (objectMeta y) then x :: ys
    else y :: replaceObject objectMeta x ys

def NewNotFound (plural name : String) : GoError :=
  GoError.status "NotFound" (plural ++ " \"" ++ name ++ "\" not found")

def NewAlreadyExists (plural name : String) : GoError :=
  GoError.status "AlreadyExists" (plural ++ " \"" ++ name ++ "\" already exists")

/-- The call `client.Get(ctx, NamespacedName(ns, name), obj)`: the object `obj`
as the read leaves it, or the error returned (in which case `obj` is left as
it was). -/
def Client.Get {α : Type} [Resource α] (c : Client) (w : World) (ns name : String) (obj : α) :
    Except GoError α :=
  match c.fault Verb.get (Resource.kind α) with
  | some err => Except.error err
  | none =>
    match findObject Resource.objectMeta ns name (Resource.items w.store : List α) with
    | some stored => Except.ok (Resource.decode c obj stored)
    | none => Except.error (NewNotFound (Resource.plural α) name)

/-- The call `client.Create(ctx, obj)`: the request is logged; unless it is
failed, the object is added when none is stored under its key. -/
def Client.Create {α : Type} [Resource α] (c : Client) (w : World) (o : α) :
    Option GoError × World :=
  let w := { w with writes := w.writes ++ [Write.create (Resource.wrap o)] }
  match c.fault Verb.create (Resource.kind α) with
  | some err => (some err, w)
  | none =>
    let m := Resource.objectMeta o
    match findObject Resource.objectMeta m.Namespace m.Name (Resource.items w.store : List α) with
    | some _ => (some (NewAlreadyExists (Resource.plural α) m.Name), w)
    | none => (none, { w with store := Resource.setItems w.store (Resource.items w.store ++ [o]) })

/-- The call `client.Update(ctx, obj)`: the request is logged; unless it is
failed, the object stored under the key of `obj` is replaced by `obj`. -/
def Client.Update {α : Type} [Resource α] (c : Client) (w : World) (o : α) :
    Option GoError × World :=
  let w := { w with writes := w.writes ++ [Write.update (Resource.wrap o)] }
  match c.fault Verb.update (Resource.kind α) with
  | some err => (some err, w)
  | none =>
    let m := Resource.objectMeta o
    match findObject Resource.objectMeta m.Namespace m.Name (Resource.items w.store : List α) with
    | none => (some (NewNotFound (Resource.plural α) m.Name), w)
    | some _ =>
      (none, { w with store :=
        Resource.setItems w.store (replaceObject Resource.objectMeta o (Resource.items w.store)) })

/-- The receiver `r`: its client, and `controllerutil.SetControllerReference(cr,
obj, r.scheme)` as the function from the owner and the metadata of `obj` to the
new owner-reference list of `obj`, or to the error returned (which leaves `obj`
as it was). -/
structure ReconcileArgoCD where
  client : Client
  SetControllerReference : ArgoCD → ObjectMeta → Except GoError (List OwnerReference)

/-- The call `argoutil.FetchObject(client, namespace, name, obj)`. -/
def FetchObject {α : Type} [Resource α] (c : Client) (w : World) (ns name : String) (obj : α) :
    Except GoError α :=
  c.Get w ns name obj

/-- Modelled from the spec: `argoutil.IsObjectFound` is not in the sources; by
section 2, the store's get reports whether the object was found. A successful
read is found, a not-found answer is not found, and the answer on any other
read failure is the parameter `Deps.IsObjectFoundOnError`. -/
def IsObjectFound {α : Type} (d : Deps) (fetched : Except GoError α) : Bool :=
  match fetched with
  | Except.ok _ => true
  | Except.error err => if IsNotFound err then false else d.IsObjectFoundOnError

/-! ## applicationset.go -/

/-- The function `setAppSetLabels`. -/
def setAppSetLabels (obj : ObjectMeta) : ObjectMeta :=
  let obj := { obj with Labels := mapSet obj.Labels "app.kubernetes.io/name" "argocd-applicationset-controller" }
  let obj := { obj with Labels := mapSet obj.Labels "app.kubernetes.io/part-of" "argocd-applicationset" }
  { obj with Labels := mapSet obj.Labels "app.kubernetes.io/component" "controller" }

/-- The function `getApplicationSetResources`; `none` is the nil-pointer panic
of reading `cr.Spec.ApplicationSet.Resources` when `cr.Spec.ApplicationSet` is nil. -/
def getApplicationSetResources (cr : ArgoCD) : Option ResourceRequirements :=
  let resources : ResourceRequirements := { Limits := [], Requests := [] }
  match cr.Spec.ApplicationSet with
  | none => none
  | some a =>
    -- Allow override of resource requirements from CR
    match a.Resources with
    | some res => some res
    | none => some resources

/-- The method `reconcileApplicationSetServiceAccount`. -/
def reconcileApplicationSetServiceAccount (d : Deps) (r : ReconcileArgoCD) (cr : ArgoCD)
    (w : World) : (Option ServiceAccount × Option GoError) × World :=
  let sa := d.newServiceAccountWithName "applicationset-controller" cr
  let sa := { sa with ObjectMeta := setAppSetLabels sa.ObjectMeta }
  match FetchObject r.client w cr.Namespace sa.ObjectMeta.Name sa with
  | Except.ok sa => ((some sa, none), w)
  | Except.error err =>
    if IsNotFound err = false then ((none, some err), w)
    else
      match r.SetControllerReference cr sa.ObjectMeta with
      | Except.error err => ((none, some err), w)
      | Except.ok refs =>
        let sa := { sa with ObjectMeta := { sa.ObjectMeta with OwnerReferences := refs } }
        match r.client.Create w sa with
        | (some err, w) => ((none, some err), w)
        | (none, w) => ((some sa, none), w)

/-- The local `policyRules` of `reconcileApplicationSetRole`. -/
def policyRules : List PolicyRule :=
  [ -- ApplicationSet
    { APIGroups := ["argoproj.io"],
      Resources := ["applications", "applicationsets", "appprojects", "applicationsets/finalizers"],
      Verbs := ["create", "delete", "get", "list", "patch", "update", "watch"] },
    -- ApplicationSet Status
    { APIGroups := ["argoproj.io"],
      Resources := ["applicationsets/status"],
      Verbs := ["get", "patch", "update"] },
    -- Events
    { APIGroups := [""],
      Resources := ["events"],
      Verbs := ["create", "delete", "get", "list", "patch", "update", "watch"] },
    -- Read Secrets/ConfigMaps
    { APIGroups := [""],
      Resources := ["secrets", "configmaps"],
      Verbs := ["get", "list", "watch"] },
    -- Read Deployments
    { APIGroups := ["apps", "extensions"],
      Resources := ["deployments"],
      Verbs := ["get", "list", "watch"] } ]

/-- The effect on `obj` of a `SetControllerReference` call whose error is not looked at. -/
def setControllerReferenceIgnoringError (r : ReconcileArgoCD) (cr : ArgoCD) (obj : ObjectMeta) :
    ObjectMeta :=
  match r.SetControllerReference cr obj with
  | Except.ok refs => { obj with OwnerReferences := refs }
  | Except.error _ => obj

/-- The method `reconcileApplicationSetRole`. The slice `policyRules` is put
into `role` by `newRole` and `role` is handed to `client.Get`, so on the found
path the later `role.Rules = policyRules` assigns the backing array as the
read left it. -/
def reconcileApplicationSetRole (d : Deps) (r : ReconcileArgoCD) (cr : ArgoCD) (w : World) :
    (Option Role × Option GoError) × World :=
  let role := d.newRole "applicationset-controller" policyRules cr
  let role := { role with ObjectMeta := setAppSetLabels role.ObjectMeta }
  match r.client.Get w cr.Namespace role.ObjectMeta.Name role with
  | Except.error err =>
    if IsNotFound err = false then
      ((none, some (GoError.errorf
        ("failed to reconcile the role for the service account associated with "
          ++ role.ObjectMeta.Name ++ " : " ++ err.Error))), w)
    else
      let role := { role with ObjectMeta := setControllerReferenceIgnoringError r cr role.ObjectMeta }
      let (err, w) := r.client.Create w role
      ((some role, err), w)
  | Except.ok role =>
    -- `role.Rules = policyRules`: `policyRules` reads the backing array that it shares with
    -- the rules of the role handed to the read, as the read left it
    let role := { role with Rules := r.client.backingArrayAfterRead policyRules role.Rules }
    let role := { role with ObjectMeta := setControllerReferenceIgnoringError r cr role.ObjectMeta }
    let (err, w) := r.client.Update w role
    ((some role, err), w)

/-- The constant `v1.GroupName` of k8s.io/api/rbac/v1. -/
def GroupName : String := "rbac.authorization.k8s.io"

/-- The constant `v1.ServiceAccountKind` of k8s.io/api/rbac/v1. -/
def ServiceAccountKind : String := "ServiceAccount"

/-- The method `reconcileApplicationSetRoleBinding`. -/
def reconcileApplicationSetRoleBinding (d : Deps) (r : ReconcileArgoCD) (cr : ArgoCD)
    (role : Role) (sa : ServiceAccount) (w : World) : Option GoError × World :=
  let name := "applicationset-controller"
  -- get expected name
  let roleBinding := d.newRoleBindingWithname name cr
  -- fetch existing rolebinding by name
  match (match r.client.Get w cr.Namespace roleBinding.ObjectMeta.Name roleBinding with
         | Except.ok existing => Except.ok (existing, true)
         | Except.error err =>
           if IsNotFound err = false then
             Except.error (GoError.errorf
               ("failed to get the rolebinding associated with " ++ name ++ " : " ++ err.Error))
           else Except.ok (roleBinding, false)) with
  | Except.error err => (some err, w)
  | Except.ok (roleBinding, roleBindingExists) =>
    let roleBinding := { roleBinding with ObjectMeta := setAppSetLabels roleBinding.ObjectMeta }
    let roleBinding := { roleBinding with
      RoleRef := { APIGroup := GroupName, Kind := "Role", Name := role.ObjectMeta.Name } }
    let roleBinding := { roleBinding with
      Subjects := [{ Kind := ServiceAccountKind, APIGroup := "", Name := sa.ObjectMeta.Name,
                     Namespace := sa.ObjectMeta.Namespace }] }
    match r.SetControllerReference cr roleBinding.ObjectMeta with
    | Except.error err => (some err, w)
    | Except.ok refs =>
      let roleBinding := { roleBinding with
        ObjectMeta := { roleBinding.ObjectMeta with OwnerReferences := refs } }
      if roleBindingExists then r.client.Update w roleBinding
      else r.client.Create w roleBinding

/-- A Go value of one of the two dynamic types handed to `reflect.DeepEqual`
in this file. -/
inductive GoValue where
  | container (c : Container)
  | containerSlice (cs : List Container)
  deriving DecidableEq, Repr

/-- The function `reflect.DeepEqual` on these values: values of distinct
types are never deeply equal; values of one type are compared structurally. -/
def reflectDeepEqual : GoValue → GoValue → Bool
  | GoValue.container a, GoValue.container b => decide (a = b)
  | GoValue.containerSlice a, GoValue.containerSlice b => decide (a = b)
  | _, _ => false

/-- The constant `corev1.PullAlways`. -/
def PullAlways : String := "Always"

/-- The literal assigned to `podSpec.Volumes` in `reconcileApplicationSetDeployment`. -/
def applicationSetVolumes (d : Deps) : List Volume :=
  [ { Name := "ssh-known-hosts", VolumeSource := VolumeSource.ConfigMap d.ArgoCDKnownHostsConfigMapName },
    { Name := "tls-certs", VolumeSource := VolumeSource.ConfigMap d.ArgoCDTLSCertsConfigMapName },
    { Name := "gpg-keys", VolumeSource := VolumeSource.ConfigMap d.ArgoCDGPGKeysConfigMapName },
    { Name := "gpg-keyring", VolumeSource := VolumeSource.EmptyDir },
    { Name := "argocd-repo-server-tls",
      VolumeSource := VolumeSource.Secret d.ArgoCDRepoServerTLSSecretName (some true) } ]

/-- The literal assigned to `podSpec.Containers` in
`reconcileApplicationSetDeployment`, given the value `resources` returned by
`getApplicationSetResources(cr)`. -/
def applicationSetContainers (d : Deps) (getenv : String → String) (cr : ArgoCD)
    (resources : ResourceRequirements) : List Container :=
  [ { Command := ["applicationset-controller", "--argocd-repo-server", d.getRepoServerAddress cr],
      Args := [],
      Env := [{ Name := "NAMESPACE", Value := "",
                ValueFrom := some { FieldRef := some { FieldPath := "metadata.namespace" } } }],
      Image := getApplicationSetContainerImage d getenv cr,
      ImagePullPolicy := PullAlways,
      Name := "argocd-applicationset-controller",
      Resources := resources,
      VolumeMounts :=
        [ { Name := "ssh-known-hosts", MountPath := "/app/config/ssh" },
          { Name := "tls-certs", MountPath := "/app/config/tls" },
          { Name := "gpg-keys", MountPath := "/app/config/gpg/source" },
          { Name := "gpg-keyring", MountPath := "/app/config/gpg/keys" },
          { Name := "argocd-repo-server-tls", MountPath := "/app/config/reposerver/tls" } ] } ]

/-- Sets `deploy.Spec.Template.Spec.Containers`. -/
def Deployment.withContainers (deploy : Deployment) (cs : List Container) : Deployment :=
  { deploy with Spec := { deploy.Spec with Template := { deploy.Spec.Template with
      Spec := { deploy.Spec.Template.Spec with Containers := cs } } } }

/-- The panic message of a nil-pointer dereference. -/
def nilPointerDereference : String :=
  "runtime error: invalid memory address or nil pointer dereference"

/-- The panic message of reading element 0 of an empty slice. -/
def indexOutOfRange : String :=
  "runtime error: index out of range [0] with length 0"

/-- The object `deploy` that `reconcileApplicationSetDeployment` builds before
it looks at the store, given the value `resources` returned by
`getApplicationSetResources(cr)`. -/
def applicationSetDeployment (d : Deps) (getenv : String → String) (cr : ArgoCD)
    (sa : ServiceAccount) (resources : ResourceRequirements) : Deployment :=
  let deploy := d.newDeploymentWithSuffix "applicationset-controller" "controller" cr
  let deploy := { deploy with ObjectMeta := setAppSetLabels deploy.ObjectMeta }
  let deploy := { deploy with Spec := { deploy.Spec with Template := { deploy.Spec.Template with
    Spec := { deploy.Spec.Template.Spec with ServiceAccountName := sa.ObjectMeta.Name } } } }
  let deploy := { deploy with Spec := { deploy.Spec with Template := { deploy.Spec.Template with
    Spec := { deploy.Spec.Template.Spec with Volumes := applicationSetVolumes d } } } }
  deploy.withContainers (applicationSetContainers d getenv cr resources)

/-- The method `reconcileApplicationSetDeployment`. The container literal is
evaluated, and with it `getApplicationSetResources(cr)`, before the store is
read. -/
def reconcileApplicationSetDeployment (d : Deps) (r : ReconcileArgoCD)
    (getenv : String → String) (cr : ArgoCD) (sa : ServiceAccount) (w : World) :
    Outcome (Option GoError) × World :=
  match getApplicationSetResources cr with
  | none => (Outcome.panicked nilPointerDereference, w)
  | some resources =>
    let deploy := applicationSetDeployment d getenv cr sa resources
    let existing := d.newDeploymentWithSuffix "applicationset-controller" "controller" cr
    let fetched : Except GoError Deployment :=
      FetchObject r.client w cr.Namespace existing.ObjectMeta.Name existing
    if IsObjectFound d fetched then
      let existing := match fetched with
        | Except.ok o => o
        | Except.error _ => existing
      -- If the Deployment already exists, make sure the containers are up-to-date
      match existing.Spec.Template.Spec.Containers.head? with
      | none => (Outcome.panicked indexOutOfRange, w)
      | some actualContainers =>
        if reflectDeepEqual (GoValue.container actualContainers)
            (GoValue.containerSlice deploy.Spec.Template.Spec.Containers) = false then
          let existing := existing.withContainers deploy.Spec.Template.Spec.Containers
          let (err, w) := r.client.Update w existing
          (Outcome.returned err, w)
        else (Outcome.returned none, w) -- Deployment found with nothing to do, move along...
    else
      match r.SetControllerReference cr deploy.ObjectMeta with
      | Except.error err => (Outcome.returned (some err), w)
      | Except.ok refs =>
        let deploy := { deploy with ObjectMeta := { deploy.ObjectMeta with OwnerReferences := refs } }
        let (err, w) := r.client.Create w deploy
        (Outcome.returned err, w)

/-- The method `reconcileApplicationSetController`. A nil `sa` or `role`
returned without an error (which the two callees never do) would be
dereferenced in `reconcileApplicationSetRoleBinding`. -/
def reconcileApplicationSetController (d : Deps) (r : ReconcileArgoCD)
    (getenv : String → String) (cr : ArgoCD) (w : World) : Outcome (Option GoError) × World :=
  match reconcileApplicationSetServiceAccount d r cr w with
  | ((_, some err), w) => (Outcome.returned (some err), w)
  | ((sa, none), w) =>
    match reconcileApplicationSetRole d r cr w with
    | ((_, some err), w) => (Outcome.returned (some err), w)
    | ((role, none), w) =>
      match role, sa with
      | some role, some sa =>
        match reconcileApplicationSetRoleBinding d r cr role sa w with
        | (some err, w) => (Outcome.returned (some err), w)
        | (none, w) =>
          match reconcileApplicationSetDeployment d r getenv cr sa w with
          | (Outcome.returned (some err), w) => (Outcome.returned (some err), w)
          | (Outcome.returned none, w) => (Outcome.returned none, w)
          | (Outcome.panicked msg, w) => (Outcome.panicked msg, w)
      | _, _ => (Outcome.panicked nilPointerDereference, w)

/-! ## Concrete instances used to exercise the definitions -/

/-- An instance of the constructors and constants taken as parameters: every
child is named after the parent with a fixed suffix and lives in the namespace
of the parent. -/
def exampleDeps : Deps where
  newServiceAccountWithName := fun name cr =>
    { ObjectMeta := { Name := cr.Name ++ "-" ++ name, Namespace := cr.Namespace,
                      Labels := [("app.kubernetes.io/managed-by", cr.Name)], OwnerReferences := [] } }
  newRole := fun name rules cr =>
    { ObjectMeta := { Name := cr.Name ++ "-" ++ name, Namespace := cr.Namespace,
                      Labels := [("app.kubernetes.io/managed-by", cr.Name)], OwnerReferences := [] },
      Rules := rules }
  newRoleBindingWithname := fun name cr =>
    { ObjectMeta := { Name := cr.Name ++ "-" ++ name, Namespace := cr.Namespace,
                      Labels := [("app.kubernetes.io/managed-by", cr.Name)], OwnerReferences := [] },
      RoleRef := { APIGroup := "", Kind := "", Name := "" },
      Subjects := [] }
  newDeploymentWithSuffix := fun suffix component cr =>
    { ObjectMeta := { Name := cr.Name ++ "-" ++ suffix, Namespace := cr.Namespace,
                      Labels := [("app.kubernetes.io/managed-by", cr.Name)], OwnerReferences := [] },
      Spec := { Selector := [("app.kubernetes.io/name", cr.Name ++ "-" ++ component)],
                Template := { Labels := [("app.kubernetes.io/name", cr.Name ++ "-" ++ component)],
                              Spec := { ServiceAccountName := "", Volumes := [], Containers := [],
                                        NodeSelector := [("kubernetes.io/os", "linux")] } } } }
  getRepoServerAddress := fun cr => cr.Name ++ "-repo-server." ++ cr.Namespace ++ ".svc.cluster.local:8081"
  CombineImageTag := fun img tag => img ++ ":" ++ tag
  IsObjectFoundOnError := true
  ArgoCDDefaultApplicationSetImage := "quay.io/argocdapplicationset/argocd-applicationset"
  ArgoCDDefaultApplicationSetVersion := "v0.1.0"
  ArgoCDApplicationSetEnvName := "ARGOCD_APPLICATIONSET_IMAGE"
  ArgoCDKnownHostsConfigMapName := "argocd-ssh-known-hosts-cm"
  ArgoCDTLSCertsConfigMapName := "argocd-tls-certs-cm"
  ArgoCDGPGKeysConfigMapName := "argocd-gpg-keys-cm"
  ArgoCDRepoServerTLSSecretName := "argocd-repo-server-tls"

/-- The owner reference that names `cr` as controller. -/
def controllerRefOf (cr : ArgoCD) : OwnerReference :=
  { APIVersion := "argoproj.io/v1alpha1", Kind := "ArgoCD", Name := cr.Name, UID := cr.UID,
    Controller := true, BlockOwnerDeletion := true }

/-- An instance of `SetControllerReference`: it refuses an object of another
namespace and an object that another controller owns, and otherwise makes the
reference to `cr` the controller reference of the object. -/
def exampleSetControllerReference (cr : ArgoCD) (obj : ObjectMeta) :
    Except GoError (List OwnerReference) :=
  if cr.Namespace ≠ "" ∧ obj.Namespace ≠ cr.Namespace then
    Except.error (GoError.ownerRef "cross-namespace owner references are disallowed")
  else if obj.OwnerReferences.any (fun o => o.Controller && decide (o.UID ≠ cr.UID)) then
    Except.error (GoError.ownerRef "Object is already owned by another controller")
  else
    Except.ok (controllerRefOf cr :: obj.OwnerReferences.filter (fun o => decide (o.UID ≠ cr.UID)))

/-- A client that reads from the cache and whose store answers every call from
its content. -/
def healthyClient : Client where
  fault := fun _ _ => none
  mode := ReadMode.replace

/-- A client that decodes what it reads into the caller's object and whose
store answers every call from its content. -/
def decodingClient : Client where
  fault := fun _ _ => none
  mode := ReadMode.decodeInto

/-- A reconciler over the decoding client. -/
def decodingReconciler : ReconcileArgoCD where
  client := decodingClient
  SetControllerReference := exampleSetControllerReference

/-- A role under the name of the applicationset-controller role that holds one
rule, which is none of the desired ones. -/
def staleRole : Role where
  ObjectMeta :=
    { Name := "argocd-applicationset-controller", Namespace := "argocd-operator",
      Labels := [], OwnerReferences := [] }
  Rules := [{ APIGroups := ["*"], Resources := ["*"], Verbs := ["*"] }]

/-- A store that holds only `staleRole`. -/
def staleRoleWorld : World where
  store := { serviceAccounts := [], roles := [staleRole], roleBindings := [], deployments := [] }
  writes := []

/-- The same role holding the stale rule five times. -/
def fiveStaleRole : Role :=
  { staleRole with Rules := staleRole.Rules ++ staleRole.Rules ++ staleRole.Rules
      ++ staleRole.Rules ++ staleRole.Rules }

/-- A store that holds only `fiveStaleRole`. -/
def fiveStaleRoleWorld : World where
  store :=
    { serviceAccounts := [], roles := [fiveStaleRole], roleBindings := [], deployments := [] }
  writes := []

/-- A reconciler over the healthy client. -/
def exampleReconciler : ReconcileArgoCD where
  client := healthyClient
  SetControllerReference := exampleSetControllerReference

/-- An environment in which no variable is set. -/
def emptyEnv : String → String := fun _ => ""

/-- A parent with an ApplicationSet spec that sets neither image nor version. -/
def exampleCR : ArgoCD where
  Name := "argocd"
  Namespace := "argocd-operator"
  UID := "abcd"
  Spec := { ApplicationSet := some { Image := "", Version := "", Resources := none } }
  Status := { RepoTLSChecksum := "" }

/-- The same parent without an ApplicationSet spec. -/
def exampleCRNoAppSet : ArgoCD :=
  { exampleCR with Spec := { ApplicationSet := none } }

/-- A store that holds nothing, with no write issued. -/
def emptyWorld : World where
  store := { serviceAccounts := [], roles := [], roleBindings := [], deployments := [] }
  writes := []

/-- The world after one reconciliation of `exampleCR` from the empty store. -/
def reconciledWorld : World :=
  (reconcileApplicationSetController exampleDeps exampleReconciler emptyEnv exampleCR emptyWorld).2

/-- The example parent with only the version set in its ApplicationSet spec. -/
def exampleCRVersion : ArgoCD :=
  { exampleCR with
    Spec := { ApplicationSet := some { Image := "", Version := "v9", Resources := none } } }

/-- An environment in which every variable holds an image reference. -/
def overrideEnv : String → String := fun _ => "example.com/appset:env"

/-- A failure of the store that is not a not-found answer. -/
def readFailure : GoError :=
  GoError.status "Timeout" "the server was unable to return a response in the time allotted"

/-- A client whose store fails every read with `readFailure`. -/
def failingReadClient : Client where
  fault := fun v _ =>
    match v with
    | Verb.get => some readFailure
    | _ => none
  mode := ReadMode.replace

/-- A reconciler over the client whose reads fail. -/
def failingReadReconciler : ReconcileArgoCD where
  client := failingReadClient
  SetControllerReference := exampleSetControllerReference

/-- A role under the name of the applicationset-controller role, with a stale
rule list and controlled by an owner other than the example parent. -/
def foreignRole : Role where
  ObjectMeta :=
    { Name := "argocd-applicationset-controller", Namespace := "argocd-operator",
      Labels := [],
      OwnerReferences := [{ APIVersion := "example.com/v1", Kind := "Other", Name := "other",
                            UID := "ffff", Controller := true, BlockOwnerDeletion := true }] }
  Rules := [{ APIGroups := ["*"], Resources := ["*"], Verbs := ["*"] }]

/-- A store that holds only `foreignRole`. -/
def foreignRoleWorld : World where
  store := { serviceAccounts := [], roles := [foreignRole], roleBindings := [], deployments := [] }
  writes := []

/-- The service account that the example reconciliation creates. -/
def exampleServiceAccount : ServiceAccount :=
  { ObjectMeta := { Name := "argocd-applicationset-controller", Namespace := "argocd-operator",
                    Labels := [], OwnerReferences := [] } }

/-- A store whose applicationset-controller deployment has no container. -/
def emptyContainersWorld : World where
  store := { serviceAccounts := [], roles := [], roleBindings := [],
             deployments :=
               [exampleDeps.newDeploymentWithSuffix "applicationset-controller" "controller"
                  exampleCR] }
  writes := []

/-- The deployment that the example reconciliation left in the store. -/
def reconciledDeployment : Deployment :=
  reconciledWorld.store.deployments.headD
    (exampleDeps.newDeploymentWithSuffix "applicationset-controller" "controller" exampleCR)

/-! ## Conditions on the parameters under which the reconciliation is studied -/

/-- What is assumed of the constructors taken as parameters: each child is
placed in the namespace of the parent, and `newRole` keeps the rule list it
is given. -/
structure Deps.WellFormed (d : Deps) : Prop where
  serviceAccount_namespace : ∀ name cr,
    (d.newServiceAccountWithName name cr).ObjectMeta.Namespace = cr.Namespace
  role_namespace : ∀ name rules cr, (d.newRole name rules cr).ObjectMeta.Namespace = cr.Namespace
  role_rules : ∀ name rules cr, (d.newRole name rules cr).Rules = rules
  roleBinding_namespace : ∀ name cr,
    (d.newRoleBindingWithname name cr).ObjectMeta.Namespace = cr.Namespace
  deployment_namespace : ∀ suffix component cr,
    (d.newDeploymentWithSuffix suffix component cr).ObjectMeta.Namespace = cr.Namespace

/-- The store serves every call of the client from its content. -/
def Client.Served (c : Client) : Prop := ∀ v k, c.fault v k = none

/-- Setting the controller reference on an object that already carries the
result of setting it gives that result again. -/
def ReconcileArgoCD.OwnerReferenceStable (r : ReconcileArgoCD) (cr : ArgoCD) : Prop :=
  ∀ (obj : ObjectMeta) (refs : List OwnerReference),
    r.SetControllerReference cr obj = Except.ok refs →
    r.SetControllerReference cr { obj with OwnerReferences := refs } = Except.ok refs

/-- The labels that `setAppSetLabels` sets are on the object. -/
def HasAppSetLabels (obj : ObjectMeta) : Prop :=
  mapGet obj.Labels "app.kubernetes.io/name" = some "argocd-applicationset-controller" ∧
  mapGet obj.Labels "app.kubernetes.io/part-of" = some "argocd-applicationset" ∧
  mapGet obj.Labels "app.kubernetes.io/component" = some "controller"

/-- The kind of an object. -/
def Object.kind : Object → Kind
  | Object.serviceAccount _ => Kind.serviceAccount
  | Object.role _ => Kind.role
  | Object.roleBinding _ => Kind.roleBinding
  | Object.deployment _ => Kind.deployment

/-- The object that a write carries. -/
def Write.object : Write → Object
  | Write.create o => o
  | Write.update o => o

/-- Whether a write is a create. -/
def Write.isCreate : Write → Bool
  | Write.create _ => true
  | Write.update _ => false

/-- Every key of `held` is a key of `m`. -/
def hasKeysOf (m held : StringMap) : Prop :=
  ∀ kv ∈ held, (mapGet m kv.1).isSome = true

/-- The object that `reconcileApplicationSetServiceAccount` hands to the read. -/
def serviceAccountForRead (d : Deps) (cr : ArgoCD) : ServiceAccount :=
  { ObjectMeta :=
      setAppSetLabels (d.newServiceAccountWithName "applicationset-controller" cr).ObjectMeta }

/-- The object that `reconcileApplicationSetRole` hands to the read. -/
def roleForRead (d : Deps) (cr : ArgoCD) : Role :=
  { ObjectMeta := setAppSetLabels (d.newRole "applicationset-controller" policyRules cr).ObjectMeta,
    Rules := (d.newRole "applicationset-controller" policyRules cr).Rules }

/-- The role that the found path of `reconcileApplicationSetRole` writes when
the store holds `stored`. -/
def rewrittenRole (d : Deps) (r : ReconcileArgoCD) (cr : ArgoCD) (stored : Role) : Role :=
  { ObjectMeta := setControllerReferenceIgnoringError r cr
      (r.client.decodeRole (roleForRead d cr) stored).ObjectMeta,
    Rules := r.client.backingArrayAfterRead policyRules
      (r.client.decodeRole (roleForRead d cr) stored).Rules }

/-- The store holds the four children `sa`, `role`, `rb` and `dep` of `cr`
under their names, each in a state that a reconciliation of `cr` writes back
as it is: the role is the one that the found path writes for it, the role
binding has the labels, refers to `role` and `sa` and has its controller
reference, and the deployment has the desired container list. -/
def Settled (d : Deps) (r : ReconcileArgoCD) (getenv : String → String) (cr : ArgoCD)
    (s : Store) (sa : ServiceAccount) (role : Role) (rb : RoleBinding) (dep : Deployment)
    (resources : ResourceRequirements) : Prop :=
  getApplicationSetResources cr = some resources ∧
  findObject ServiceAccount.ObjectMeta cr.Namespace
    (d.newServiceAccountWithName "applicationset-controller" cr).ObjectMeta.Name
    s.serviceAccounts = some sa ∧
  findObject Role.ObjectMeta cr.Namespace
    (d.newRole "applicationset-controller" policyRules cr).ObjectMeta.Name s.roles = some role ∧
  rewrittenRole d r cr role = role ∧
  findObject RoleBinding.ObjectMeta cr.Namespace
    (d.newRoleBindingWithname "applicationset-controller" cr).ObjectMeta.Name
    s.roleBindings = some rb ∧
  setAppSetLabels (r.client.decodeRoleBinding
    (d.newRoleBindingWithname "applicationset-controller" cr) rb).ObjectMeta = rb.ObjectMeta ∧
  rb.RoleRef = { APIGroup := GroupName, Kind := "Role", Name := role.ObjectMeta.Name } ∧
  rb.Subjects = [{ Kind := ServiceAccountKind, APIGroup := "", Name := sa.ObjectMeta.Name,
                   Namespace := sa.ObjectMeta.Namespace }] ∧
  r.SetControllerReference cr rb.ObjectMeta = Except.ok rb.ObjectMeta.OwnerReferences ∧
  findObject Deployment.ObjectMeta cr.Namespace
    (d.newDeploymentWithSuffix "applicationset-controller" "controller" cr).ObjectMeta.Name
    s.deployments = some dep ∧
  (r.client.decodeDeployment
    (d.newDeploymentWithSuffix "applicationset-controller" "controller" cr) dep).withContainers
      (applicationSetContainers d getenv cr resources) = dep

/-! ## The fingerprint of the repo-server TLS secret

`reconcileRepoServerTLSSecret` is exercised by secret_test.go and is not in the
sources; it is modelled here from sections 3, 4.2 and 4.3 of the
specification. The test computes the expected digest with `sha256.Sum256` and
renders it with `%x`; SHA-256 (FIPS 180-4) is written out below over bytes and
32-bit words held in `Nat`. -/

/-- Addition of 32-bit words. -/
def add32 (a b : Nat) : Nat := (a + b) % 4294967296

/-- Rotation of a 32-bit word to the right. -/
def rotr (x n : Nat) : Nat := (x >>> n) ||| ((x <<< (32 - n)) % 4294967296)

def sha256Ch (x y z : Nat) : Nat := (x &&& y) ^^^ ((x ^^^ 4294967295) &&& z)

def sha256Maj (x y z : Nat) : Nat := (x &&& y) ^^^ (x &&& z) ^^^ (y &&& z)

def bigSigma0 (x : Nat) : Nat := rotr x 2 ^^^ rotr x 13 ^^^ rotr x 22

def bigSigma1 (x : Nat) : Nat := rotr x 6 ^^^ rotr x 11 ^^^ rotr x 25

def smallSigma0 (x : Nat) : Nat := rotr x 7 ^^^ rotr x 18 ^^^ (x >>> 3)

def smallSigma1 (x : Nat) : Nat := rotr x 17 ^^^ rotr x 19 ^^^ (x >>> 10)

/-- The round constants of SHA-256. -/
def sha256K : List Nat :=
  [0x428a2f98, 0x71374491, 0xb5c0fbcf, 0xe9b5dba5, 0x3956c25b, 0x59f111f1, 0x923f82a4, 0xab1c5ed5,
   0xd807aa98, 0x12835b01, 0x243185be, 0x550c7dc3, 0x72be5d74, 0x80deb1fe, 0x9bdc06a7, 0xc19bf174,
   0xe49b69c1, 0xefbe4786, 0x0fc19dc6, 0x240ca1cc, 0x2de92c6f, 0x4a7484aa, 0x5cb0a9dc, 0x76f988da,
   0x983e5152, 0xa831c66d, 0xb00327c8, 0xbf597fc7, 0xc6e00bf3, 0xd5a79147, 0x06ca6351, 0x14292967,
   0x27b70a85, 0x2e1b2138, 0x4d2c6dfc, 0x53380d13, 0x650a7354, 0x766a0abb, 0x81c2c92e, 0x92722c85,
   0xa2bfe8a1, 0xa81a664b, 0xc24b8b70, 0xc76c51a3, 0xd192e819, 0xd6990624, 0xf40e3585, 0x106aa070,
   0x19a4c116, 0x1e376c08, 0x2748774c, 0x34b0bcb5, 0x391c0cb3, 0x4ed8aa4a, 0x5b9cca4f, 0x682e6ff3,
   0x748f82ee, 0x78a5636f, 0x84c87814, 0x8cc70208, 0x90befffa, 0xa4506ceb, 0xbef9a3f7, 0xc67178f2]

/-- The initial hash value of SHA-256. -/
def sha256Init : List Nat :=
  [0x6a09e667, 0xbb67ae85, 0x3c6ef372, 0xa54ff53a, 0x510e527f, 0x9b05688c, 0x1f83d9ab, 0x5be0cd19]

/-- The `width` bytes of `n`, most significant first. -/
def bigEndian (width n : Nat) : List Nat :=
  (List.range width).map (fun i => (n >>> (8 * (width - 1 - i))) % 256)

/-- The message padded to a multiple of 64 bytes. -/
def sha256Pad (msg : List Nat) : List Nat :=
  msg ++ [128] ++ List.replicate ((119 - msg.length % 64) % 64) 0 ++ bigEndian 8 (8 * msg.length)

/-- The 32-bit word `j` of a block. -/
def wordAt (block : List Nat) (j : Nat) : Nat :=
  (block.getD (4 * j) 0 % 256) * 16777216 + (block.getD (4 * j + 1) 0 % 256) * 65536
    + (block.getD (4 * j + 2) 0 % 256) * 256 + block.getD (4 * j + 3) 0 % 256

/-- The message schedule of a block: its 16 words extended to 64. -/
def sha256Schedule (block : List Nat) : List Nat :=
  (List.range 48).foldl
    (fun ws i =>
      ws ++ [add32 (add32 (smallSigma1 (ws.getD (i + 14) 0)) (ws.getD (i + 9) 0))
               (add32 (smallSigma0 (ws.getD (i + 1) 0)) (ws.getD i 0))])
    ((List.range 16).map (wordAt block))

/-- One round of the compression function on the working variables. -/
def sha256Round (ws : List Nat) (st : List Nat) (i : Nat) : List Nat :=
  let a := st.getD 0 0
  let b := st.getD 1 0
  let c := st.getD 2 0
  let d := st.getD 3 0
  let e := st.getD 4 0
  let f := st.getD 5 0
  let g := st.getD 6 0
  let h := st.getD 7 0
  let t1 := add32 (add32 (add32 h (bigSigma1 e)) (add32 (sha256Ch e f g) (sha256K.getD i 0)))
    (ws.getD i 0)
  let t2 := add32 (bigSigma0 a) (sha256Maj a b c)
  [add32 t1 t2, a, b, c, add32 d t1, e, f, g]

/-- The compression of one block into the hash value. -/
def sha256Block (hs : List Nat) (block : List Nat) : List Nat :=
  let st := (List.range 64).foldl (sha256Round (sha256Schedule block)) hs
  List.zipWith add32 hs st

/-- The SHA-256 digest (32 bytes) of a byte sequence. -/
def sha256 (msg : List Nat) : List Nat :=
  let padded := sha256Pad msg
  let hs := (List.range (padded.length / 64)).foldl
    (fun hs i => sha256Block hs ((padded.drop (64 * i)).take 64)) sha256Init
  hs.flatMap (bigEndian 4)

def hexDigit (n : Nat) : Char := "0123456789abcdef".toList.getD n '0'

/-- The rendering `%x` of a byte sequence: two lowercase hexadecimal digits a byte. -/
def hexEncode (bytes : List Nat) : String :=
  String.mk (bytes.flatMap (fun b => [hexDigit (b / 16 % 16), hexDigit (b % 16)]))

/-- The key material of the TLS secret: two byte sequences. -/
structure TLSSecretMaterial where
  certificate : List Nat
  privateKey : List Nat
  deriving DecidableEq, Repr

/-- A workload that depends on the secret, with the labels of its pod template. -/
structure DependentWorkload where
  Kind : String
  Namespace : String
  Name : String
  TemplateLabels : StringMap
  deriving DecidableEq, Repr

/-- Modelled from the spec: `computeFingerprint` (section 4.2), which is not in
the sources: the hash of the certificate bytes followed by the private-key
bytes, with no separator, rendered as lowercase hexadecimal. -/
def computeFingerprint (material : TLSSecretMaterial) : String :=
  hexEncode (sha256 (material.certificate ++ material.privateKey))

/-- Modelled from the spec: `hasChanged` (section 4.2), which is not in the
sources: true iff the new digest differs from the digest recorded in the
status of the parent. -/
def hasChanged (parent : ArgoCD) (newDigest : String) : Bool :=
  decide (newDigest ≠ parent.Status.RepoTLSChecksum)

/-- Modelled from the spec: `propagate` (section 4.3), which is not in the
sources: nothing is written when `changed` is false; otherwise each dependent
in turn gets the new marker value and is persisted, and the first update that
the store refuses (`updateError`) is returned with the earlier dependents
left updated. -/
def propagate (changed : Bool) (marker : String)
    (updateError : DependentWorkload → Option GoError) :
    List DependentWorkload → Option GoError × List DependentWorkload
  | [] => (none, [])
  | dep :: rest =>
    if changed = false then (none, dep :: rest)
    else
      match updateError dep with
      | some err => (some err, dep :: rest)
      | none =>
        let (err, rest) := propagate changed marker updateError rest
        (err, { dep with
          TemplateLabels := mapSet dep.TemplateLabels "repo.tls.cert.changed" marker } :: rest)

/-- Modelled from the spec: `reconcileRepoServerTLSSecret`, which is not in the
sources (secret_test.go calls it): the fingerprint of the observed material is
computed, a change against the recorded digest is propagated to the
dependents, and on completion the recorded digest is set to the new one
unconditionally (sections 4.2 and 4.3). -/
def reconcileRepoServerTLSSecret (cr : ArgoCD) (material : TLSSecretMaterial)
    (marker : String) (updateError : DependentWorkload → Option GoError)
    (dependents : List DependentWorkload) : Option GoError × ArgoCD × List DependentWorkload :=
  let newDigest := computeFingerprint material
  match propagate (hasChanged cr newDigest) marker updateError dependents with
  | (some err, dependents) => (some err, cr, dependents)
  | (none, dependents) =>
    (none, { cr with Status := { RepoTLSChecksum := newDigest } }, dependents)

/-- The bytes of `foo`, the certificate of secret_test.go. -/
def fooBytes : List Nat := [102, 111, 111]

/-- The bytes of `bar`, the private key of secret_test.go. -/
def barBytes : List Nat := [98, 97, 114]

/-- The three dependents of secret_test.go. -/
def exampleDependents : List DependentWorkload :=
  [ { Kind := "Deployment", Namespace := "argocd-operator", Name := "argocd-server",
      TemplateLabels := [] },
    { Kind := "Deployment", Namespace := "argocd-operator", Name := "argocd-repo-server",
      TemplateLabels := [] },
    { Kind := "StatefulSet", Namespace := "argocd-operator",
      Name := "argocd-application-controller", TemplateLabels := [] } ]

/-- A store that accepts every update of a dependent. -/
def noUpdateError : DependentWorkload → Option GoError := fun _ => none

/-- The first pass of secret_test.go: certificate `foo`, key `bar`, no digest recorded. -/
def firstPass : Option GoError × ArgoCD × List DependentWorkload :=
  reconcileRepoServerTLSSecret exampleCR { certificate := fooBytes, privateKey := barBytes }
    "marker-1" noUpdateError exampleDependents

/-- The second pass: the secret is unchanged. -/
def secondPass : Option GoError × ArgoCD × List DependentWorkload :=
  reconcileRepoServerTLSSecret firstPass.2.1 { certificate := fooBytes, privateKey := barBytes }
    "marker-2" noUpdateError firstPass.2.2

/-- The third pass: the certificate alone was replaced by `bar`. -/
def thirdPass : Option GoError × ArgoCD × List DependentWorkload :=
  reconcileRepoServerTLSSecret secondPass.2.1 { certificate := barBytes, privateKey := barBytes }
    "marker-3" noUpdateError secondPass.2.2

/-! ## Properties -/

/-! ### Labels -/

theorem mapGet_mapSet_same (m : StringMap) (k v : String) : mapGet (mapSet m k v) k = some v := by
  induction m with
  | nil => simp [mapSet, mapGet]
  | cons p rest ih =>
    obtain ⟨k', v'⟩ := p
    by_cases h : k' = k
    · simp [mapSet, mapGet, h]
    · simp [mapSet, mapGet, h, ih]

theorem mapGet_mapSet_other (m : StringMap) (k k' v : String) (h : k ≠ k') :
    mapGet (mapSet m k v) k' = mapGet m k' := by
  induction m with
  | nil => simp [mapSet, mapGet, h]
  | cons p rest ih =>
    obtain ⟨k₀, v₀⟩ := p
    by_cases h₀ : k₀ = k
    · subst h₀
      simp [mapSet, mapGet, h]
    · simp only [mapSet, h₀, if_false, mapGet, ih]

theorem mapSet_of_mapGet (m : StringMap) (k v : String) (h : mapGet m k = some v) :
    mapSet m k v = m := by
  induction m with
  | nil => simp [mapGet] at h
  | cons p rest ih =>
    obtain ⟨k₀, v₀⟩ := p
    by_cases h₀ : k₀ = k
    · subst h₀
      simp only [mapGet, if_true, Option.some.injEq] at h
      simp [mapSet, h]
    · simp only [mapGet, h₀, if_false] at h
      simp [mapSet, h₀, ih h]

theorem setAppSetLabels_name (m : ObjectMeta) : (setAppSetLabels m).Name = m.Name := rfl

theorem setAppSetLabels_namespace (m : ObjectMeta) :
    (setAppSetLabels m).Namespace = m.Namespace := rfl

theorem setAppSetLabels_ownerReferences (m : ObjectMeta) :
    (setAppSetLabels m).OwnerReferences = m.OwnerReferences := rfl

/-- The three labels that `setAppSetLabels` leaves on an object. -/
theorem setAppSetLabels_labels (m : ObjectMeta) :
    mapGet (setAppSetLabels m).Labels "app.kubernetes.io/name"
        = some "argocd-applicationset-controller" ∧
    mapGet (setAppSetLabels m).Labels "app.kubernetes.io/part-of"
        = some "argocd-applicationset" ∧
    mapGet (setAppSetLabels m).Labels "app.kubernetes.io/component" = some "controller" := by
  refine ⟨?_, ?_, ?_⟩
  · simp only [setAppSetLabels]
    rw [mapGet_mapSet_other _ _ _ _ (by decide), mapGet_mapSet_other _ _ _ _ (by decide),
      mapGet_mapSet_same]
  · simp only [setAppSetLabels]
    rw [mapGet_mapSet_other _ _ _ _ (by decide), mapGet_mapSet_same]
  · simp only [setAppSetLabels]
    rw [mapGet_mapSet_same]

/-- Setting the labels a second time changes nothing. -/
theorem setAppSetLabels_idem (m : ObjectMeta) :
    setAppSetLabels (setAppSetLabels m) = setAppSetLabels m := by
  obtain ⟨h1, h2, h3⟩ := setAppSetLabels_labels m
  generalize setAppSetLabels m = m' at h1 h2 h3
  have e1 := mapSet_of_mapGet _ _ _ h1
  have e2 := mapSet_of_mapGet _ _ _ h2
  have e3 := mapSet_of_mapGet _ _ _ h3
  simp only [setAppSetLabels, e1, e2, e3]

/-! ### The container image -/

/-- C9: `getApplicationSetContainerImage` returns the value of the override
environment variable when that value is non-empty and the ApplicationSet spec
is absent or leaves both image and version empty; in every other case it
returns `CombineImageTag i t`, with `i` the spec image or the default image
and `t` the spec version or the default version; once either field is set in
the spec the result is the same for every environment. -/
theorem getApplicationSetContainerImage_result (d : Deps) (getenv : String → String)
    (cr : ArgoCD) :
    let e := getenv d.ArgoCDApplicationSetEnvName
    let img := match cr.Spec.ApplicationSet with
      | some a => a.Image
      | none => ""
    let tag := match cr.Spec.ApplicationSet with
      | some a => a.Version
      | none => ""
    let i := if img = "" then d.ArgoCDDefaultApplicationSetImage else img
    let t := if tag = "" then d.ArgoCDDefaultApplicationSetVersion else tag
    let unset := match cr.Spec.ApplicationSet with
      | some a => a.Image = "" ∧ a.Version = ""
      | none => True
    ((e ≠ "" ∧ unset) → getApplicationSetContainerImage d getenv cr = e) ∧
    (¬ (e ≠ "" ∧ unset) → getApplicationSetContainerImage d getenv cr = d.CombineImageTag i t) ∧
    (¬ unset → ∀ getenv' : String → String,
      getApplicationSetContainerImage d getenv' cr = d.CombineImageTag i t) := by
  intro e img tag i t unset
  cases hspec : cr.Spec.ApplicationSet with
  | none =>
    simp only [e, img, tag, i, t, unset, getApplicationSetContainerImage, hspec]
    by_cases he : getenv d.ArgoCDApplicationSetEnvName = "" <;> simp [he]
  | some a =>
    simp only [e, img, tag, i, t, unset, getApplicationSetContainerImage, hspec]
    by_cases hi : a.Image = "" <;> by_cases hv : a.Version = "" <;>
      by_cases he : getenv d.ArgoCDApplicationSetEnvName = "" <;> simp [hi, hv, he]

/-- Instance of C9: with the variable set, the environment value is returned
for a spec that sets nothing, and the combined image once the spec names a
version. -/
theorem getApplicationSetContainerImage_result_witness :
    getApplicationSetContainerImage exampleDeps overrideEnv exampleCR
      = "example.com/appset:env" ∧
    getApplicationSetContainerImage exampleDeps overrideEnv exampleCRVersion
      = "quay.io/argocdapplicationset/argocd-applicationset:v9" :=
  ⟨(getApplicationSetContainerImage_result exampleDeps overrideEnv exampleCR).1
      ⟨by decide, by simp [exampleCR]⟩,
   (getApplicationSetContainerImage_result exampleDeps overrideEnv exampleCRVersion).2.1
      (by simp [exampleCRVersion])⟩

/-! ### The store -/

theorem findObject_hasKey {α : Type} (objectMeta : α → ObjectMeta) (ns name : String)
    (xs : List α) (x : α) (h : findObject objectMeta ns name xs = some x) :
    hasKey ns name (objectMeta x) = true := by
  induction xs with
  | nil => simp [findObject] at h
  | cons y ys ih =>
    by_cases hy : hasKey ns name (objectMeta y) = true
    · simp only [findObject, hy, if_true, Option.some.injEq] at h
      rw [← h]; exact hy
    · simp only [findObject, hy] at h
      exact ih h

theorem hasKey_iff (ns name : String) (m : ObjectMeta) :
    hasKey ns name m = true ↔ m.Namespace = ns ∧ m.Name = name := by
  simp [hasKey]

theorem findObject_replaceObject {α : Type} (objectMeta : α → ObjectMeta) (x y : α)
    (xs : List α)
    (h : findObject objectMeta (objectMeta x).Namespace (objectMeta x).Name xs = some y) :
    findObject objectMeta (objectMeta x).Namespace (objectMeta x).Name
      (replaceObject objectMeta x xs) = some x := by
  induction xs with
  | nil => simp [findObject] at h
  | cons z zs ih =>
    by_cases hz : hasKey (objectMeta x).Namespace (objectMeta x).Name (objectMeta z) = true
    · have hx : hasKey (objectMeta x).Namespace (objectMeta x).Name (objectMeta x) = true := by
        simp [hasKey]
      simp [replaceObject, hz, findObject, hx]
    · simp only [findObject, hz] at h
      simp [replaceObject, hz, findObject, ih h]

/-- Replacing a stored object by itself leaves the list as it was. -/
theorem replaceObject_self {α : Type} (objectMeta : α → ObjectMeta) (x : α) (xs : List α)
    (h : findObject objectMeta (objectMeta x).Namespace (objectMeta x).Name xs = some x) :
    replaceObject objectMeta x xs = xs := by
  induction xs with
  | nil => rfl
  | cons z zs ih =>
    by_cases hz : hasKey (objectMeta x).Namespace (objectMeta x).Name (objectMeta z) = true
    · simp only [findObject, hz, if_true, Option.some.injEq] at h
      subst h
      simp [replaceObject, hz]
    · simp only [findObject, hz] at h
      simp [replaceObject, hz, ih h]

theorem findObject_append_none {α : Type} (objectMeta : α → ObjectMeta) (ns name : String)
    (xs : List α) (x : α) (h : findObject objectMeta ns name xs = none) :
    findObject objectMeta ns name (xs ++ [x])
      = if hasKey ns name (objectMeta x) then some x else none := by
  induction xs with
  | nil => simp [findObject]
  | cons z zs ih =>
    by_cases hz : hasKey ns name (objectMeta z) = true
    · simp [findObject, hz] at h
    · simp only [findObject, hz] at h
      simp [findObject, hz, ih h]

theorem Client.Get_ok {α : Type} [Resource α] (c : Client) (w : World) (ns name : String)
    (obj o : α) (h : c.Get w ns name obj = Except.ok o) :
    c.fault Verb.get (Resource.kind α) = none ∧
    ∃ stored : α,
      findObject Resource.objectMeta ns name (Resource.items w.store : List α) = some stored ∧
      o = Resource.decode c obj stored := by
  unfold Client.Get at h
  cases hf : c.fault Verb.get (Resource.kind α) with
  | some e => simp [hf] at h
  | none =>
    simp only [hf] at h
    cases hfind : findObject Resource.objectMeta ns name (Resource.items w.store : List α) with
    | none => simp [hfind] at h
    | some stored =>
      simp only [hfind, Except.ok.injEq] at h
      exact ⟨rfl, stored, rfl, h.symm⟩

theorem Client.Update_writes {α : Type} [Resource α] (c : Client) (w : World) (o : α) :
    (c.Update w o).2.writes = w.writes ++ [Write.update (Resource.wrap o)] := by
  unfold Client.Update
  cases c.fault Verb.update (Resource.kind α) with
  | some e => rfl
  | none =>
    dsimp only
    cases findObject Resource.objectMeta (Resource.objectMeta o).Namespace
      (Resource.objectMeta o).Name (Resource.items w.store : List α) <;> rfl

theorem Client.Create_writes {α : Type} [Resource α] (c : Client) (w : World) (o : α) :
    (c.Create w o).2.writes = w.writes ++ [Write.create (Resource.wrap o)] := by
  unfold Client.Create
  cases c.fault Verb.create (Resource.kind α) with
  | some e => rfl
  | none =>
    dsimp only
    cases findObject Resource.objectMeta (Resource.objectMeta o).Namespace
      (Resource.objectMeta o).Name (Resource.items w.store : List α) <;> rfl

theorem Client.Update_ok {α : Type} [Resource α] (c : Client) (w : World) (o : α)
    (h : (c.Update w o).1 = none) :
    (c.Update w o).2.store = Resource.setItems w.store
      (replaceObject Resource.objectMeta o (Resource.items w.store)) := by
  unfold Client.Update at h ⊢
  cases hf : c.fault Verb.update (Resource.kind α) with
  | some e => simp [hf] at h
  | none =>
    simp only [hf] at h ⊢
    cases hfind : findObject Resource.objectMeta (Resource.objectMeta o).Namespace
      (Resource.objectMeta o).Name (Resource.items w.store : List α) with
    | none => simp [hfind] at h
    | some o' => rfl

/-! ### Reads that fill the caller's object -/

theorem mapGet_isSome_of_mem (m : StringMap) (k v : String) (h : (k, v) ∈ m) :
    (mapGet m k).isSome = true := by
  induction m with
  | nil => simp at h
  | cons p rest ih =>
    obtain ⟨k', v'⟩ := p
    by_cases hk : k' = k
    · simp [mapGet, hk]
    · have hmem : (k, v) ∈ rest := by
        rcases List.mem_cons.1 h with h | h
        · exact absurd (Prod.mk.inj h).1.symm hk
        · exact h
      simp [mapGet, hk, ih hmem]

theorem mapGet_append_isSome (xs ys : StringMap) (k : String)
    (h : (mapGet xs k).isSome = true) : (mapGet (xs ++ ys) k).isSome = true := by
  induction xs with
  | nil => simp [mapGet] at h
  | cons p rest ih =>
    obtain ⟨k', v'⟩ := p
    by_cases hk : k' = k
    · simp [mapGet, hk]
    · simp only [mapGet, hk, if_false] at h
      simp [mapGet, hk, ih h]

theorem mapGet_append_of_none (xs ys : StringMap) (k : String) (h : mapGet xs k = none) :
    mapGet (xs ++ ys) k = mapGet ys k := by
  induction xs with
  | nil => rfl
  | cons p rest ih =>
    obtain ⟨k', v'⟩ := p
    by_cases hk : k' = k
    · simp [mapGet, hk] at h
    · simp only [mapGet, hk, if_false] at h
      simp [mapGet, hk, ih h]

theorem hasKeysOf_self (m : StringMap) : hasKeysOf m m := by
  intro kv hkv
  exact mapGet_isSome_of_mem m kv.1 kv.2 hkv

theorem hasKeysOf_mapSet (m held : StringMap) (k v : String) (h : hasKeysOf m held) :
    hasKeysOf (mapSet m k v) held := by
  intro kv hkv
  by_cases hk : k = kv.1
  · rw [← hk, mapGet_mapSet_same]; rfl
  · rw [mapGet_mapSet_other _ _ _ _ hk]; exact h kv hkv

theorem decodeMapInto_hasKeysOf (held decoded : StringMap) :
    hasKeysOf (decodeMapInto held decoded) held := by
  intro kv hkv
  unfold decodeMapInto
  cases hget : mapGet decoded kv.1 with
  | some v => exact mapGet_append_isSome _ _ _ (by rw [hget]; rfl)
  | none =>
    rw [mapGet_append_of_none _ _ _ hget]
    exact mapGet_isSome_of_mem _ kv.1 kv.2
      (List.mem_filter.2 ⟨hkv, by rw [hget]; rfl⟩)

theorem decodeMapInto_of_hasKeysOf (held m : StringMap) (h : hasKeysOf m held) :
    decodeMapInto held m = m := by
  unfold decodeMapInto
  have hnil : held.filter (fun kv => (mapGet m kv.1).isNone) = [] := by
    rw [List.filter_eq_nil_iff]
    intro kv hkv
    have := h kv hkv
    cases hget : mapGet m kv.1 with
    | none => rw [hget] at this; simp at this
    | some v => simp
  rw [hnil, List.append_nil]

theorem hasKeysOf_of_decodeMapInto (held m : StringMap) (h : decodeMapInto held m = m) :
    hasKeysOf m held := by
  rw [← h]; exact decodeMapInto_hasKeysOf held m

/-- A map that a read has filled is read back as it is. -/
theorem Client.decodeMap_idem (c : Client) (held decoded : StringMap) :
    c.decodeMap held (c.decodeMap held decoded) = c.decodeMap held decoded := by
  unfold Client.decodeMap
  cases c.mode with
  | replace => rfl
  | decodeInto => exact decodeMapInto_of_hasKeysOf _ _ (decodeMapInto_hasKeysOf held decoded)

theorem Client.decodeMap_self (c : Client) (held : StringMap) : c.decodeMap held held = held := by
  unfold Client.decodeMap
  cases c.mode with
  | replace => rfl
  | decodeInto => exact decodeMapInto_of_hasKeysOf _ _ (hasKeysOf_self held)

theorem Client.decodeMap_mapSet (c : Client) (held m : StringMap) (k v : String)
    (h : c.decodeMap held m = m) : c.decodeMap held (mapSet m k v) = mapSet m k v := by
  unfold Client.decodeMap at h ⊢
  cases hmode : c.mode with
  | replace => rfl
  | decodeInto =>
    rw [hmode] at h
    exact decodeMapInto_of_hasKeysOf _ _
      (hasKeysOf_mapSet _ _ _ _ (hasKeysOf_of_decodeMapInto _ _ h))

/-- The labels of an object after `setAppSetLabels`. -/
theorem setAppSetLabels_eq (m : ObjectMeta) :
    setAppSetLabels m = { m with Labels := (setAppSetLabels m).Labels } := rfl

theorem setAppSetLabels_labels_congr (m m' : ObjectMeta) (h : m.Labels = m'.Labels) :
    (setAppSetLabels m).Labels = (setAppSetLabels m').Labels := by
  simp only [setAppSetLabels, h]

theorem Client.decodeMap_setAppSetLabels (c : Client) (held : StringMap) (m : ObjectMeta)
    (h : c.decodeMap held m.Labels = m.Labels) :
    c.decodeMap held (setAppSetLabels m).Labels = (setAppSetLabels m).Labels := by
  simp only [setAppSetLabels]
  exact Client.decodeMap_mapSet _ _ _ _ _
    (Client.decodeMap_mapSet _ _ _ _ _ (Client.decodeMap_mapSet _ _ _ _ _ h))

theorem Client.decodeObjectMeta_of_labels (c : Client) (obj m : ObjectMeta)
    (h : c.decodeMap obj.Labels m.Labels = m.Labels) : c.decodeObjectMeta obj m = m := by
  unfold Client.decodeObjectMeta
  rw [h]

theorem Client.decodeObjectMeta_name (c : Client) (obj m : ObjectMeta) :
    (c.decodeObjectMeta obj m).Name = m.Name := rfl

theorem Client.decodeObjectMeta_namespace (c : Client) (obj m : ObjectMeta) :
    (c.decodeObjectMeta obj m).Namespace = m.Namespace := rfl

theorem Client.decodeObjectMeta_idem (c : Client) (obj m : ObjectMeta) :
    c.decodeObjectMeta obj (c.decodeObjectMeta obj m) = c.decodeObjectMeta obj m :=
  Client.decodeObjectMeta_of_labels c obj _ (Client.decodeMap_idem c obj.Labels m.Labels)

/-- Writing a decoded list into a backing array a second time leaves the array
as the first writing left it. -/
theorem Client.backingArrayAfterRead_idem {α : Type} (c : Client) (held decoded : List α) :
    c.backingArrayAfterRead held (c.backingArrayAfterRead held decoded)
      = c.backingArrayAfterRead held decoded := by
  unfold Client.backingArrayAfterRead
  cases c.mode with
  | replace => rfl
  | decodeInto =>
    have hlen : (decoded.take held.length ++ held.drop decoded.length).length = held.length := by
      simp only [List.length_append, List.length_take, List.length_drop]
      omega
    simp only [hlen, List.drop_length, List.append_nil]
    exact List.take_of_length_le (le_of_eq hlen)

theorem Client.backingArrayAfterRead_self {α : Type} (c : Client) (held : List α) :
    c.backingArrayAfterRead held held = held := by
  unfold Client.backingArrayAfterRead
  cases c.mode with
  | replace => rfl
  | decodeInto => simp

/-! ### The role -/

theorem setControllerReferenceIgnoringError_name (r : ReconcileArgoCD) (cr : ArgoCD)
    (m : ObjectMeta) : (setControllerReferenceIgnoringError r cr m).Name = m.Name := by
  unfold setControllerReferenceIgnoringError
  cases r.SetControllerReference cr m <;> rfl

theorem setControllerReferenceIgnoringError_namespace (r : ReconcileArgoCD) (cr : ArgoCD)
    (m : ObjectMeta) : (setControllerReferenceIgnoringError r cr m).Namespace = m.Namespace := by
  unfold setControllerReferenceIgnoringError
  cases r.SetControllerReference cr m <;> rfl

theorem Client.Get_role_of_held (c : Client) (w : World) (ns name : String) (obj existing : Role)
    (hfault : c.fault Verb.get Kind.role = none)
    (hheld : findObject Role.ObjectMeta ns name w.store.roles = some existing) :
    c.Get w ns name obj = Except.ok (c.decodeRole obj existing) := by
  unfold Client.Get
  have hf : c.fault Verb.get (Resource.kind Role) = none := hfault
  have hfind : findObject Resource.objectMeta ns name (Resource.items w.store : List Role)
      = some existing := hheld
  rw [hf]
  simp only [hfind]
  rfl

/-- What the found path of `reconcileApplicationSetRole` returns and stores
when the update succeeds: the role that the read left, with the backing array
of `policyRules` as the read left it for rules. -/
theorem reconcileApplicationSetRole_of_held (d : Deps) (r : ReconcileArgoCD) (cr : ArgoCD)
    (w w' : World) (existing : Role) (returned : Option Role)
    (hfault : r.client.fault Verb.get Kind.role = none)
    (hheld : findObject Role.ObjectMeta cr.Namespace
      (d.newRole "applicationset-controller" policyRules cr).ObjectMeta.Name w.store.roles
        = some existing)
    (hret : reconcileApplicationSetRole d r cr w = ((returned, none), w')) :
    ∃ role : Role, returned = some role ∧
      role.Rules = r.client.backingArrayAfterRead policyRules existing.Rules ∧
      findObject Role.ObjectMeta cr.Namespace
        (d.newRole "applicationset-controller" policyRules cr).ObjectMeta.Name w'.store.roles
        = some role := by
  have hkey := (hasKey_iff _ _ _).1 (findObject_hasKey _ _ _ _ _ hheld)
  have hget := Client.Get_role_of_held r.client w cr.Namespace
    (setAppSetLabels (d.newRole "applicationset-controller" policyRules cr).ObjectMeta).Name
    (Role.mk (setAppSetLabels (d.newRole "applicationset-controller" policyRules cr).ObjectMeta)
      (d.newRole "applicationset-controller" policyRules cr).Rules)
    existing hfault hheld
  simp only [reconcileApplicationSetRole, hget] at hret
  generalize hrole :
    Role.mk (setControllerReferenceIgnoringError r cr
        (r.client.decodeRole (Role.mk (setAppSetLabels
          (d.newRole "applicationset-controller" policyRules cr).ObjectMeta)
          (d.newRole "applicationset-controller" policyRules cr).Rules) existing).ObjectMeta)
      (r.client.backingArrayAfterRead policyRules
        (r.client.decodeRole (Role.mk (setAppSetLabels
          (d.newRole "applicationset-controller" policyRules cr).ObjectMeta)
          (d.newRole "applicationset-controller" policyRules cr).Rules) existing).Rules)
      = role at hret
  have hns : role.ObjectMeta.Namespace = cr.Namespace := by
    rw [← hrole]; simp only [setControllerReferenceIgnoringError_namespace]; exact hkey.1
  have hname : role.ObjectMeta.Name
      = (d.newRole "applicationset-controller" policyRules cr).ObjectMeta.Name := by
    rw [← hrole]; simp only [setControllerReferenceIgnoringError_name]; exact hkey.2
  simp only [Prod.mk.injEq] at hret
  obtain ⟨⟨hr, herr⟩, hw⟩ := hret
  refine ⟨role, hr.symm, by rw [← hrole]; rfl, ?_⟩
  have hstore := Client.Update_ok r.client w role herr
  rw [← hw, hstore]
  have hfind' : findObject Role.ObjectMeta role.ObjectMeta.Namespace role.ObjectMeta.Name
      w.store.roles = some existing := by rw [hns, hname]; exact hheld
  have := findObject_replaceObject Role.ObjectMeta role existing w.store.roles hfind'
  rw [hns, hname] at this
  exact this

/-- With a client that decodes the stored role into the role handed to it, the
found path of `reconcileApplicationSetRole` returns and stores a role whose
rule list starts with the rules that were stored (up to five of them) and
continues with the desired rules of the remaining positions. -/
theorem reconcileApplicationSetRole_rules_of_decodeInto (d : Deps) (r : ReconcileArgoCD)
    (cr : ArgoCD) (w w' : World) (existing : Role) (returned : Option Role)
    (hmode : r.client.mode = ReadMode.decodeInto)
    (hfault : r.client.fault Verb.get Kind.role = none)
    (hheld : findObject Role.ObjectMeta cr.Namespace
      (d.newRole "applicationset-controller" policyRules cr).ObjectMeta.Name w.store.roles
        = some existing)
    (hret : reconcileApplicationSetRole d r cr w = ((returned, none), w')) :
    ∃ role : Role, returned = some role ∧
      role.Rules = existing.Rules.take 5 ++ policyRules.drop existing.Rules.length ∧
      findObject Role.ObjectMeta cr.Namespace
        (d.newRole "applicationset-controller" policyRules cr).ObjectMeta.Name w'.store.roles
        = some role := by
  obtain ⟨role, h1, h2, h3⟩ :=
    reconcileApplicationSetRole_of_held d r cr w w' existing returned hfault hheld hret
  refine ⟨role, h1, ?_, h3⟩
  rw [h2]
  simp only [Client.backingArrayAfterRead, hmode]
  rfl

/-- C5 (failing input): with a client that decodes the stored role into the
role handed to it, on a store whose applicationset-controller role holds one
stale rule, `reconcileApplicationSetRole` returns no error, and the role it
returns and the role it leaves in the store have the stale rule followed by
the second to fifth desired rules: the stale rule is kept, and the rule list
is not the desired one. -/
theorem reconcileApplicationSetRole_keeps_stale_rules :
    decodingReconciler.client.mode = ReadMode.decodeInto ∧
    (reconcileApplicationSetRole exampleDeps decodingReconciler exampleCR staleRoleWorld).1.2
      = none ∧
    (reconcileApplicationSetRole exampleDeps decodingReconciler exampleCR
      staleRoleWorld).1.1.map Role.Rules = some (staleRole.Rules ++ policyRules.drop 1) ∧
    (findObject Role.ObjectMeta exampleCR.Namespace
      (exampleDeps.newRole "applicationset-controller" policyRules exampleCR).ObjectMeta.Name
      (reconcileApplicationSetRole exampleDeps decodingReconciler exampleCR
        staleRoleWorld).2.store.roles).map Role.Rules
      = some (staleRole.Rules ++ policyRules.drop 1) ∧
    staleRole.Rules ++ policyRules.drop 1 ≠ policyRules := by
  refine ⟨by rfl, by decide, by decide, by decide, by decide⟩

/-- A second failing input: five stale rules are all kept. -/
theorem reconcileApplicationSetRole_keeps_five_stale_rules :
    (reconcileApplicationSetRole exampleDeps decodingReconciler exampleCR
      fiveStaleRoleWorld).1.1.map Role.Rules = some fiveStaleRole.Rules := by
  decide

/-- With a client that replaces the role handed to it by a copy of the stored
one, the found path of `reconcileApplicationSetRole` returns and stores a role
with exactly the five desired rules. -/
theorem reconcileApplicationSetRole_overwrites_rules_of_replace (d : Deps)
    (r : ReconcileArgoCD) (cr : ArgoCD) (w w' : World) (existing : Role)
    (returned : Option Role)
    (hmode : r.client.mode = ReadMode.replace)
    (hfault : r.client.fault Verb.get Kind.role = none)
    (hheld : findObject Role.ObjectMeta cr.Namespace
      (d.newRole "applicationset-controller" policyRules cr).ObjectMeta.Name w.store.roles
        = some existing)
    (hret : reconcileApplicationSetRole d r cr w = ((returned, none), w')) :
    ∃ role : Role, returned = some role ∧ role.Rules = policyRules ∧
      policyRules.length = 5 ∧
      findObject Role.ObjectMeta cr.Namespace
        (d.newRole "applicationset-controller" policyRules cr).ObjectMeta.Name w'.store.roles
        = some role := by
  obtain ⟨role, h1, h2, h3⟩ :=
    reconcileApplicationSetRole_of_held d r cr w w' existing returned hfault hheld hret
  refine ⟨role, h1, ?_, rfl, h3⟩
  rw [h2]
  simp only [Client.backingArrayAfterRead, hmode]

/-! ### Read failures -/

/-- C4 (amended): when the read of the existing object fails with an error `e`
other than not-found, the service-account operation returns `e` itself, the
role and role-binding operations return a new error whose text is a fixed
message followed by the text of `e`, and none of the three issues a write or
changes the store. -/
theorem fetch_failure_results (d : Deps) (r : ReconcileArgoCD) (cr : ArgoCD) (w : World)
    (role : Role) (sa : ServiceAccount) (e : GoError) (he : IsNotFound e = false) :
    (FetchObject r.client w cr.Namespace
        (d.newServiceAccountWithName "applicationset-controller" cr).ObjectMeta.Name
        (serviceAccountForRead d cr) = Except.error e →
      reconcileApplicationSetServiceAccount d r cr w = ((none, some e), w)) ∧
    (r.client.Get w cr.Namespace
        (d.newRole "applicationset-controller" policyRules cr).ObjectMeta.Name
        (roleForRead d cr) = Except.error e →
      reconcileApplicationSetRole d r cr w =
        ((none, some (GoError.errorf
          ("failed to reconcile the role for the service account associated with "
            ++ (d.newRole "applicationset-controller" policyRules cr).ObjectMeta.Name
            ++ " : " ++ e.Error))), w)) ∧
    (r.client.Get w cr.Namespace
        (d.newRoleBindingWithname "applicationset-controller" cr).ObjectMeta.Name
        (d.newRoleBindingWithname "applicationset-controller" cr) = Except.error e →
      reconcileApplicationSetRoleBinding d r cr role sa w =
        (some (GoError.errorf
          ("failed to get the rolebinding associated with " ++ "applicationset-controller"
            ++ " : " ++ e.Error)), w)) := by
  refine ⟨?_, ?_, ?_⟩
  · intro h
    have h' : FetchObject r.client w cr.Namespace
        (setAppSetLabels
          (d.newServiceAccountWithName "applicationset-controller" cr).ObjectMeta).Name
        (ServiceAccount.mk (setAppSetLabels
          (d.newServiceAccountWithName "applicationset-controller" cr).ObjectMeta))
        = Except.error e := h
    simp only [reconcileApplicationSetServiceAccount, h', he, if_true]
  · intro h
    have h' : r.client.Get w cr.Namespace
        (setAppSetLabels (d.newRole "applicationset-controller" policyRules cr).ObjectMeta).Name
        (Role.mk (setAppSetLabels (d.newRole "applicationset-controller" policyRules
          cr).ObjectMeta) (d.newRole "applicationset-controller" policyRules cr).Rules)
        = Except.error e := h
    simp only [reconcileApplicationSetRole, h', he, if_true]
    rfl
  · intro h
    simp only [reconcileApplicationSetRoleBinding, h, he, if_true]

/-- Instance of C4 (amended): the three operations against a store whose reads
time out. -/
theorem fetch_failure_results_witness :
    reconcileApplicationSetServiceAccount exampleDeps failingReadReconciler exampleCR emptyWorld
      = ((none, some readFailure), emptyWorld) ∧
    reconcileApplicationSetRole exampleDeps failingReadReconciler exampleCR emptyWorld
      = ((none, some (GoError.errorf
          ("failed to reconcile the role for the service account associated with "
            ++ (exampleDeps.newRole "applicationset-controller" policyRules
                  exampleCR).ObjectMeta.Name
            ++ " : " ++ readFailure.Error))), emptyWorld) ∧
    reconcileApplicationSetRoleBinding exampleDeps failingReadReconciler exampleCR foreignRole
        exampleServiceAccount emptyWorld
      = (some (GoError.errorf
          ("failed to get the rolebinding associated with " ++ "applicationset-controller"
            ++ " : " ++ readFailure.Error)), emptyWorld) :=
  have h := fetch_failure_results exampleDeps failingReadReconciler exampleCR emptyWorld
    foreignRole exampleServiceAccount readFailure (by decide)
  ⟨h.1 (by rfl), h.2.1 (by rfl), h.2.2 (by rfl)⟩

/-- C4 (as stated) fails: the read of the role fails with `readFailure`, which
is not a not-found error, and `reconcileApplicationSetRole` returns an error
that is not `readFailure`. -/
theorem reconcileApplicationSetRole_reformats_fetch_error :
    failingReadReconciler.client.Get emptyWorld exampleCR.Namespace
        (exampleDeps.newRole "applicationset-controller" policyRules exampleCR).ObjectMeta.Name
        (roleForRead exampleDeps exampleCR) = Except.error readFailure ∧
    IsNotFound readFailure = false ∧
    (reconcileApplicationSetRole exampleDeps failingReadReconciler exampleCR emptyWorld).1.2
      ≠ some readFailure := by
  refine ⟨by rfl, by decide, by decide⟩

/-! ### Owner references -/

/-- C8 (failing input): on a store whose applicationset-controller role is
controlled by another owner, `SetControllerReference` fails for the role, and
`reconcileApplicationSetRole` still issues the update of the role and returns
no error. -/
theorem reconcileApplicationSetRole_ignores_owner_reference_failure :
    exampleReconciler.SetControllerReference exampleCR foreignRole.ObjectMeta
      = Except.error (GoError.ownerRef "Object is already owned by another controller") ∧
    (reconcileApplicationSetRole exampleDeps exampleReconciler exampleCR foreignRoleWorld).1.2
      = none ∧
    (reconcileApplicationSetRole exampleDeps exampleReconciler exampleCR foreignRoleWorld).2.writes
      = [Write.update (Object.role { foreignRole with Rules := policyRules })] := by
  refine ⟨by rfl, by decide, by decide⟩

/-! ### The deployment -/

/-- C10 (failing input): for a parent without ApplicationSet spec,
`reconcileApplicationSetDeployment` panics on the nil pointer that
`getApplicationSetResources` dereferences, whatever the store holds. -/
theorem reconcileApplicationSetDeployment_panics_without_spec (d : Deps) (r : ReconcileArgoCD)
    (getenv : String → String) (cr : ArgoCD) (sa : ServiceAccount) (w : World)
    (hnil : cr.Spec.ApplicationSet = none) :
    reconcileApplicationSetDeployment d r getenv cr sa w
      = (Outcome.panicked nilPointerDereference, w) := by
  simp only [reconcileApplicationSetDeployment, getApplicationSetResources, hnil]

/-- Instance of C10 (failing input): the example parent without ApplicationSet spec. -/
theorem reconcileApplicationSetDeployment_panics_without_spec_witness :
    reconcileApplicationSetDeployment exampleDeps exampleReconciler emptyEnv exampleCRNoAppSet
        exampleServiceAccount emptyWorld
      = (Outcome.panicked nilPointerDereference, emptyWorld) :=
  reconcileApplicationSetDeployment_panics_without_spec exampleDeps exampleReconciler emptyEnv
    exampleCRNoAppSet exampleServiceAccount emptyWorld (by rfl)

/-- A second panic of `reconcileApplicationSetDeployment`: the existing
deployment has an empty container list and element 0 is read. -/
theorem reconcileApplicationSetDeployment_panics_on_empty_containers :
    reconcileApplicationSetDeployment exampleDeps exampleReconciler emptyEnv exampleCR
        exampleServiceAccount emptyContainersWorld
      = (Outcome.panicked indexOutOfRange, emptyContainersWorld) := by
  decide

/-- The comparison in `reconcileApplicationSetDeployment` never succeeds: a
container is not deeply equal to a list of containers. -/
theorem reflectDeepEqual_container_slice (c : Container) (cs : List Container) :
    reflectDeepEqual (GoValue.container c) (GoValue.containerSlice cs) = false := rfl

/-- C3 (failing input): whenever the applicationset-controller deployment is
found with a non-empty container list, `reconcileApplicationSetDeployment`
issues an update of it, also when its container list already is the desired
one. -/
theorem reconcileApplicationSetDeployment_always_updates (d : Deps) (r : ReconcileArgoCD)
    (getenv : String → String) (cr : ArgoCD) (sa : ServiceAccount) (w : World)
    (resources : ResourceRequirements) (existing : Deployment) (c : Container)
    (hspec : getApplicationSetResources cr = some resources)
    (hfetch : FetchObject r.client w cr.Namespace
      (d.newDeploymentWithSuffix "applicationset-controller" "controller" cr).ObjectMeta.Name
      (d.newDeploymentWithSuffix "applicationset-controller" "controller" cr)
        = Except.ok existing)
    (hhead : existing.Spec.Template.Spec.Containers.head? = some c) :
    (reconcileApplicationSetDeployment d r getenv cr sa w).2.writes = w.writes ++
      [Write.update (Object.deployment
        (existing.withContainers (applicationSetContainers d getenv cr resources)))] := by
  simp only [reconcileApplicationSetDeployment, hspec, hfetch, IsObjectFound, hhead, if_true,
    reflectDeepEqual_container_slice]
  exact Client.Update_writes r.client w _

/-- Instance of C3 (failing input): the deployment left by a first
reconciliation already has the desired container list, and the deployment
operation updates it all the same. -/
theorem reconcileApplicationSetDeployment_always_updates_witness :
    reconciledDeployment.Spec.Template.Spec.Containers
      = applicationSetContainers exampleDeps emptyEnv exampleCR { Limits := [], Requests := [] } ∧
    (reconcileApplicationSetDeployment exampleDeps exampleReconciler emptyEnv exampleCR
        exampleServiceAccount reconciledWorld).2.writes = reconciledWorld.writes ++
      [Write.update (Object.deployment (reconciledDeployment.withContainers
        (applicationSetContainers exampleDeps emptyEnv exampleCR
          { Limits := [], Requests := [] })))] :=
  ⟨by decide,
   reconcileApplicationSetDeployment_always_updates exampleDeps exampleReconciler emptyEnv
     exampleCR exampleServiceAccount reconciledWorld { Limits := [], Requests := [] }
     reconciledDeployment _ (by rfl) (by rfl) (by rfl)⟩

/-! ### Calls served by the store -/

@[simp] theorem items_serviceAccount (s : Store) :
    (Resource.items s : List ServiceAccount) = s.serviceAccounts := rfl

@[simp] theorem items_role (s : Store) : (Resource.items s : List Role) = s.roles := rfl

@[simp] theorem items_roleBinding (s : Store) :
    (Resource.items s : List RoleBinding) = s.roleBindings := rfl

@[simp] theorem items_deployment (s : Store) :
    (Resource.items s : List Deployment) = s.deployments := rfl

@[simp] theorem setItems_serviceAccount (s : Store) (xs : List ServiceAccount) :
    Resource.setItems s xs = { s with serviceAccounts := xs } := rfl

@[simp] theorem setItems_role (s : Store) (xs : List Role) :
    Resource.setItems s xs = { s with roles := xs } := rfl

@[simp] theorem setItems_roleBinding (s : Store) (xs : List RoleBinding) :
    Resource.setItems s xs = { s with roleBindings := xs } := rfl

@[simp] theorem setItems_deployment (s : Store) (xs : List Deployment) :
    Resource.setItems s xs = { s with deployments := xs } := rfl

@[simp] theorem objectMeta_serviceAccount (o : ServiceAccount) :
    Resource.objectMeta o = o.ObjectMeta := rfl

@[simp] theorem objectMeta_role (o : Role) : Resource.objectMeta o = o.ObjectMeta := rfl

@[simp] theorem objectMeta_roleBinding (o : RoleBinding) :
    Resource.objectMeta o = o.ObjectMeta := rfl

@[simp] theorem objectMeta_deployment (o : Deployment) :
    Resource.objectMeta o = o.ObjectMeta := rfl

theorem IsNotFound_NewNotFound (plural name : String) :
    IsNotFound (NewNotFound plural name) = true := by
  simp [IsNotFound, NewNotFound]

@[simp] theorem decode_serviceAccount (c : Client) (obj stored : ServiceAccount) :
    Resource.decode c obj stored = c.decodeServiceAccount obj stored := rfl

@[simp] theorem decode_role (c : Client) (obj stored : Role) :
    Resource.decode c obj stored = c.decodeRole obj stored := rfl

@[simp] theorem decode_roleBinding (c : Client) (obj stored : RoleBinding) :
    Resource.decode c obj stored = c.decodeRoleBinding obj stored := rfl

@[simp] theorem decode_deployment (c : Client) (obj stored : Deployment) :
    Resource.decode c obj stored = c.decodeDeployment obj stored := rfl

theorem Client.Get_served {α : Type} [Resource α] (c : Client) (hs : c.Served) (w : World)
    (ns name : String) (obj : α) :
    c.Get w ns name obj =
      match findObject Resource.objectMeta ns name (Resource.items w.store : List α) with
      | some stored => Except.ok (Resource.decode c obj stored)
      | none => Except.error (NewNotFound (Resource.plural α) name) := by
  unfold Client.Get
  rw [hs Verb.get (Resource.kind α)]

theorem Client.Get_found {α : Type} [Resource α] (c : Client) (hs : c.Served) (w : World)
    (ns name : String) (obj stored : α)
    (h : findObject Resource.objectMeta ns name (Resource.items w.store : List α)
      = some stored) :
    c.Get w ns name obj = Except.ok (Resource.decode c obj stored) := by
  rw [Client.Get_served c hs, h]

theorem Client.Get_absent {α : Type} [Resource α] (c : Client) (hs : c.Served) (w : World)
    (ns name : String) (obj : α)
    (h : findObject Resource.objectMeta ns name (Resource.items w.store : List α) = none) :
    c.Get w ns name obj = Except.error (NewNotFound (Resource.plural α) name) := by
  rw [Client.Get_served c hs, h]

theorem Client.Create_absent {α : Type} [Resource α] (c : Client) (hs : c.Served) (w : World)
    (o : α)
    (h : findObject Resource.objectMeta (Resource.objectMeta o).Namespace
      (Resource.objectMeta o).Name (Resource.items w.store : List α) = none) :
    c.Create w o = (none,
      { store := Resource.setItems w.store (Resource.items w.store ++ [o]),
        writes := w.writes ++ [Write.create (Resource.wrap o)] }) := by
  unfold Client.Create
  rw [hs Verb.create (Resource.kind α)]
  simp only [h]

theorem Client.Update_found {α : Type} [Resource α] (c : Client) (hs : c.Served) (w : World)
    (o o' : α)
    (h : findObject Resource.objectMeta (Resource.objectMeta o).Namespace
      (Resource.objectMeta o).Name (Resource.items w.store : List α) = some o') :
    c.Update w o = (none,
      { store := Resource.setItems w.store
          (replaceObject Resource.objectMeta o (Resource.items w.store)),
        writes := w.writes ++ [Write.update (Resource.wrap o)] }) := by
  unfold Client.Update
  rw [hs Verb.update (Resource.kind α)]
  simp only [h]

/-! ### The service account, on a store that serves its calls -/

theorem reconcileApplicationSetServiceAccount_found (d : Deps) (r : ReconcileArgoCD)
    (cr : ArgoCD) (w : World) (hs : r.client.Served) (sa : ServiceAccount)
    (h : findObject ServiceAccount.ObjectMeta cr.Namespace
      (d.newServiceAccountWithName "applicationset-controller" cr).ObjectMeta.Name
      w.store.serviceAccounts = some sa) :
    reconcileApplicationSetServiceAccount d r cr w
      = ((some (r.client.decodeServiceAccount (serviceAccountForRead d cr) sa), none), w) := by
  have hget : FetchObject r.client w cr.Namespace
      (setAppSetLabels
        (d.newServiceAccountWithName "applicationset-controller" cr).ObjectMeta).Name
      (ServiceAccount.mk (setAppSetLabels
        (d.newServiceAccountWithName "applicationset-controller" cr).ObjectMeta))
      = Except.ok (r.client.decodeServiceAccount (serviceAccountForRead d cr) sa) :=
    Client.Get_found r.client hs w _ _ _ sa h
  simp only [reconcileApplicationSetServiceAccount, hget]

theorem reconcileApplicationSetServiceAccount_absent (d : Deps) (r : ReconcileArgoCD)
    (cr : ArgoCD) (w : World) (hs : r.client.Served) (wf : d.WellFormed)
    (refs : List OwnerReference)
    (h : findObject ServiceAccount.ObjectMeta cr.Namespace
      (d.newServiceAccountWithName "applicationset-controller" cr).ObjectMeta.Name
      w.store.serviceAccounts = none)
    (href : r.SetControllerReference cr
      (setAppSetLabels (d.newServiceAccountWithName "applicationset-controller" cr).ObjectMeta)
        = Except.ok refs) :
    reconcileApplicationSetServiceAccount d r cr w =
      ((some (ServiceAccount.mk { setAppSetLabels
          (d.newServiceAccountWithName "applicationset-controller" cr).ObjectMeta with
          OwnerReferences := refs }), none),
       { store := { w.store with serviceAccounts := w.store.serviceAccounts ++
           [ServiceAccount.mk { setAppSetLabels
             (d.newServiceAccountWithName "applicationset-controller" cr).ObjectMeta with
             OwnerReferences := refs }] },
         writes := w.writes ++ [Write.create (Object.serviceAccount
           (ServiceAccount.mk { setAppSetLabels
             (d.newServiceAccountWithName "applicationset-controller" cr).ObjectMeta with
             OwnerReferences := refs }))] }) := by
  have hget : FetchObject r.client w cr.Namespace
      (setAppSetLabels
        (d.newServiceAccountWithName "applicationset-controller" cr).ObjectMeta).Name
      (ServiceAccount.mk (setAppSetLabels
        (d.newServiceAccountWithName "applicationset-controller" cr).ObjectMeta))
      = Except.error (NewNotFound _ _) :=
    Client.Get_absent r.client hs w _ _ _ h
  have hcreate := Client.Create_absent r.client hs w
    (ServiceAccount.mk { setAppSetLabels
      (d.newServiceAccountWithName "applicationset-controller" cr).ObjectMeta with
      OwnerReferences := refs })
    (by simpa [setAppSetLabels_name, setAppSetLabels_namespace, wf.serviceAccount_namespace]
          using h)
  simp only [reconcileApplicationSetServiceAccount, hget, IsNotFound_NewNotFound, href, hcreate]
  rfl

theorem reconcileApplicationSetServiceAccount_step (d : Deps) (r : ReconcileArgoCD)
    (cr : ArgoCD) (w w' : World) (hs : r.client.Served) (wf : d.WellFormed)
    (res : Option ServiceAccount)
    (h : reconcileApplicationSetServiceAccount d r cr w = ((res, none), w')) :
    ∃ returned stored : ServiceAccount, res = some returned ∧
      returned.ObjectMeta.Name = stored.ObjectMeta.Name ∧
      returned.ObjectMeta.Namespace = stored.ObjectMeta.Namespace ∧
      findObject ServiceAccount.ObjectMeta cr.Namespace
        (d.newServiceAccountWithName "applicationset-controller" cr).ObjectMeta.Name
        w'.store.serviceAccounts = some stored ∧
      w'.store.roles = w.store.roles ∧ w'.store.roleBindings = w.store.roleBindings ∧
      w'.store.deployments = w.store.deployments := by
  cases hfind : findObject ServiceAccount.ObjectMeta cr.Namespace
      (d.newServiceAccountWithName "applicationset-controller" cr).ObjectMeta.Name
      w.store.serviceAccounts with
  | some sa =>
    rw [reconcileApplicationSetServiceAccount_found d r cr w hs sa hfind] at h
    simp only [Prod.mk.injEq] at h
    obtain ⟨⟨h1, _⟩, h2⟩ := h
    subst h2
    exact ⟨_, sa, h1.symm, rfl, rfl, hfind, rfl, rfl, rfl⟩
  | none =>
    cases href : r.SetControllerReference cr
        (setAppSetLabels (d.newServiceAccountWithName "applicationset-controller" cr).ObjectMeta)
      with
    | error e =>
      have hget : FetchObject r.client w cr.Namespace
          (setAppSetLabels
            (d.newServiceAccountWithName "applicationset-controller" cr).ObjectMeta).Name
          (ServiceAccount.mk (setAppSetLabels
            (d.newServiceAccountWithName "applicationset-controller" cr).ObjectMeta))
          = Except.error (NewNotFound _ _) :=
        Client.Get_absent r.client hs w _ _ _ hfind
      simp [reconcileApplicationSetServiceAccount, hget, IsNotFound_NewNotFound, href] at h
    | ok refs =>
      rw [reconcileApplicationSetServiceAccount_absent d r cr w hs wf refs hfind href] at h
      simp only [Prod.mk.injEq] at h
      obtain ⟨⟨h1, _⟩, h2⟩ := h
      subst h2
      refine ⟨_, _, h1.symm, rfl, rfl, ?_, rfl, rfl, rfl⟩
      rw [findObject_append_none _ _ _ _ _ hfind]
      simp [hasKey, setAppSetLabels_name, setAppSetLabels_namespace,
        wf.serviceAccount_namespace]

/-! ### The role, on a store that serves its calls -/

theorem setControllerReferenceIgnoringError_idem (r : ReconcileArgoCD) (cr : ArgoCD)
    (hstable : r.OwnerReferenceStable cr) (m : ObjectMeta) :
    setControllerReferenceIgnoringError r cr (setControllerReferenceIgnoringError r cr m)
      = setControllerReferenceIgnoringError r cr m := by
  cases h : r.SetControllerReference cr m with
  | error e =>
    have h1 : setControllerReferenceIgnoringError r cr m = m := by
      simp [setControllerReferenceIgnoringError, h]
    rw [h1, h1]
  | ok refs =>
    have h1 : setControllerReferenceIgnoringError r cr m = { m with OwnerReferences := refs } := by
      simp [setControllerReferenceIgnoringError, h]
    rw [h1]
    simp [setControllerReferenceIgnoringError, hstable m refs h]

theorem setControllerReferenceIgnoringError_labels (r : ReconcileArgoCD) (cr : ArgoCD)
    (m : ObjectMeta) : (setControllerReferenceIgnoringError r cr m).Labels = m.Labels := by
  unfold setControllerReferenceIgnoringError
  cases r.SetControllerReference cr m <;> rfl

theorem rewrittenRole_eq (d : Deps) (r : ReconcileArgoCD) (cr : ArgoCD) (stored : Role) :
    rewrittenRole d r cr stored =
      Role.mk (setControllerReferenceIgnoringError r cr
          (r.client.decodeObjectMeta (setAppSetLabels
            (d.newRole "applicationset-controller" policyRules cr).ObjectMeta) stored.ObjectMeta))
        (r.client.backingArrayAfterRead policyRules stored.Rules) := rfl

/-- The role that the found path writes is written back as it is by a second
found path. -/
theorem rewrittenRole_idem (d : Deps) (r : ReconcileArgoCD) (cr : ArgoCD)
    (hstable : r.OwnerReferenceStable cr) (stored : Role) :
    rewrittenRole d r cr (rewrittenRole d r cr stored) = rewrittenRole d r cr stored := by
  have hlabels : r.client.decodeObjectMeta
      (setAppSetLabels (d.newRole "applicationset-controller" policyRules cr).ObjectMeta)
      (setControllerReferenceIgnoringError r cr (r.client.decodeObjectMeta (setAppSetLabels
        (d.newRole "applicationset-controller" policyRules cr).ObjectMeta) stored.ObjectMeta))
      = setControllerReferenceIgnoringError r cr (r.client.decodeObjectMeta (setAppSetLabels
        (d.newRole "applicationset-controller" policyRules cr).ObjectMeta) stored.ObjectMeta) := by
    apply Client.decodeObjectMeta_of_labels
    rw [setControllerReferenceIgnoringError_labels]
    exact Client.decodeMap_idem _ _ _
  rw [rewrittenRole_eq d r cr (rewrittenRole d r cr stored), rewrittenRole_eq d r cr stored]
  simp only [hlabels, setControllerReferenceIgnoringError_idem r cr hstable,
    Client.backingArrayAfterRead_idem]

/-- The role that the not-found path creates is written back as it is by the
found path. -/
theorem rewrittenRole_created (d : Deps) (r : ReconcileArgoCD) (cr : ArgoCD)
    (hstable : r.OwnerReferenceStable cr) :
    rewrittenRole d r cr (Role.mk (setControllerReferenceIgnoringError r cr (setAppSetLabels
        (d.newRole "applicationset-controller" policyRules cr).ObjectMeta)) policyRules)
      = Role.mk (setControllerReferenceIgnoringError r cr (setAppSetLabels
        (d.newRole "applicationset-controller" policyRules cr).ObjectMeta)) policyRules := by
  have hlabels : r.client.decodeObjectMeta
      (setAppSetLabels (d.newRole "applicationset-controller" policyRules cr).ObjectMeta)
      (setControllerReferenceIgnoringError r cr (setAppSetLabels
        (d.newRole "applicationset-controller" policyRules cr).ObjectMeta))
      = setControllerReferenceIgnoringError r cr (setAppSetLabels
        (d.newRole "applicationset-controller" policyRules cr).ObjectMeta) := by
    apply Client.decodeObjectMeta_of_labels
    rw [setControllerReferenceIgnoringError_labels]
    exact Client.decodeMap_self _ _
  rw [rewrittenRole_eq]
  simp only [hlabels, setControllerReferenceIgnoringError_idem r cr hstable,
    Client.backingArrayAfterRead_self]

theorem rewrittenRole_name (d : Deps) (r : ReconcileArgoCD) (cr : ArgoCD) (stored : Role) :
    (rewrittenRole d r cr stored).ObjectMeta.Name = stored.ObjectMeta.Name := by
  rw [rewrittenRole_eq]
  simp only [setControllerReferenceIgnoringError_name]
  rfl

theorem rewrittenRole_namespace (d : Deps) (r : ReconcileArgoCD) (cr : ArgoCD) (stored : Role) :
    (rewrittenRole d r cr stored).ObjectMeta.Namespace = stored.ObjectMeta.Namespace := by
  rw [rewrittenRole_eq]
  simp only [setControllerReferenceIgnoringError_namespace]
  rfl

theorem reconcileApplicationSetRole_found (d : Deps) (r : ReconcileArgoCD) (cr : ArgoCD)
    (w : World) (hs : r.client.Served) (existing : Role)
    (h : findObject Role.ObjectMeta cr.Namespace
      (d.newRole "applicationset-controller" policyRules cr).ObjectMeta.Name w.store.roles
        = some existing) :
    reconcileApplicationSetRole d r cr w =
      ((some (rewrittenRole d r cr existing), none),
       { store := { w.store with roles := (replaceObject Role.ObjectMeta
           (rewrittenRole d r cr existing) w.store.roles) },
         writes := w.writes ++ [Write.update (Object.role (rewrittenRole d r cr existing))] }) := by
  have hget : r.client.Get w cr.Namespace
      (setAppSetLabels (d.newRole "applicationset-controller" policyRules cr).ObjectMeta).Name
      (Role.mk (setAppSetLabels (d.newRole "applicationset-controller" policyRules
        cr).ObjectMeta) (d.newRole "applicationset-controller" policyRules cr).Rules)
      = Except.ok (r.client.decodeRole (roleForRead d cr) existing) :=
    Client.Get_found r.client hs w _ _ _ existing h
  have hkey := (hasKey_iff _ _ _).1 (findObject_hasKey _ _ _ _ _ h)
  have hupdate := Client.Update_found r.client hs w (rewrittenRole d r cr existing) existing
    (by
      have h' : findObject Role.ObjectMeta (rewrittenRole d r cr existing).ObjectMeta.Namespace
          (rewrittenRole d r cr existing).ObjectMeta.Name w.store.roles = some existing := by
        rw [rewrittenRole_name, rewrittenRole_namespace]
        rw [show existing.ObjectMeta.Namespace = cr.Namespace from hkey.1,
          show existing.ObjectMeta.Name = _ from hkey.2]
        exact h
      exact h')
  have hrole : Role.mk (setControllerReferenceIgnoringError r cr
        (r.client.decodeRole (roleForRead d cr) existing).ObjectMeta)
      (r.client.backingArrayAfterRead policyRules
        (r.client.decodeRole (roleForRead d cr) existing).Rules)
      = rewrittenRole d r cr existing := rfl
  simp only [reconcileApplicationSetRole, hget, hrole, hupdate]
  rfl

theorem reconcileApplicationSetRole_absent (d : Deps) (r : ReconcileArgoCD) (cr : ArgoCD)
    (w : World) (hs : r.client.Served) (wf : d.WellFormed)
    (h : findObject Role.ObjectMeta cr.Namespace
      (d.newRole "applicationset-controller" policyRules cr).ObjectMeta.Name w.store.roles
        = none) :
    reconcileApplicationSetRole d r cr w =
      ((some (Role.mk (setControllerReferenceIgnoringError r cr (setAppSetLabels
          (d.newRole "applicationset-controller" policyRules cr).ObjectMeta)) policyRules), none),
       { store := { w.store with roles := w.store.roles ++
           [Role.mk (setControllerReferenceIgnoringError r cr (setAppSetLabels
             (d.newRole "applicationset-controller" policyRules cr).ObjectMeta)) policyRules] },
         writes := w.writes ++ [Write.create (Object.role
           (Role.mk (setControllerReferenceIgnoringError r cr (setAppSetLabels
             (d.newRole "applicationset-controller" policyRules cr).ObjectMeta))
               policyRules))] }) := by
  have hget : r.client.Get w cr.Namespace
      (setAppSetLabels (d.newRole "applicationset-controller" policyRules cr).ObjectMeta).Name
      (Role.mk (setAppSetLabels (d.newRole "applicationset-controller" policyRules
        cr).ObjectMeta) (d.newRole "applicationset-controller" policyRules cr).Rules)
      = Except.error (NewNotFound _ _) :=
    Client.Get_absent r.client hs w _ _ _ h
  have hcreate := Client.Create_absent r.client hs w
    (Role.mk (setControllerReferenceIgnoringError r cr (setAppSetLabels
      (d.newRole "applicationset-controller" policyRules cr).ObjectMeta))
      (d.newRole "applicationset-controller" policyRules cr).Rules)
    (by simpa [setControllerReferenceIgnoringError_name,
          setControllerReferenceIgnoringError_namespace, setAppSetLabels_name,
          setAppSetLabels_namespace, wf.role_namespace] using h)
  simp only [reconcileApplicationSetRole, hget, IsNotFound_NewNotFound, hcreate]
  simp only [wf.role_rules]
  rfl

theorem reconcileApplicationSetRole_step (d : Deps) (r : ReconcileArgoCD) (cr : ArgoCD)
    (w w' : World) (hs : r.client.Served) (wf : d.WellFormed)
    (hstable : r.OwnerReferenceStable cr) (res : Option Role) (err : Option GoError)
    (h : reconcileApplicationSetRole d r cr w = ((res, err), w')) :
    ∃ role : Role, res = some role ∧ err = none ∧
      findObject Role.ObjectMeta cr.Namespace
        (d.newRole "applicationset-controller" policyRules cr).ObjectMeta.Name w'.store.roles
          = some role ∧
      rewrittenRole d r cr role = role ∧
      w'.store.serviceAccounts = w.store.serviceAccounts ∧
      w'.store.roleBindings = w.store.roleBindings ∧
      w'.store.deployments = w.store.deployments := by
  cases hfind : findObject Role.ObjectMeta cr.Namespace
      (d.newRole "applicationset-controller" policyRules cr).ObjectMeta.Name w.store.roles with
  | some existing =>
    rw [reconcileApplicationSetRole_found d r cr w hs existing hfind] at h
    simp only [Prod.mk.injEq] at h
    obtain ⟨⟨h1, h2⟩, h3⟩ := h
    subst h3
    have hkey := (hasKey_iff _ _ _).1 (findObject_hasKey _ _ _ _ _ hfind)
    refine ⟨rewrittenRole d r cr existing, h1.symm, h2.symm, ?_,
      rewrittenRole_idem d r cr hstable existing, rfl, rfl, rfl⟩
    have h' : findObject Role.ObjectMeta (rewrittenRole d r cr existing).ObjectMeta.Namespace
        (rewrittenRole d r cr existing).ObjectMeta.Name w.store.roles = some existing := by
      rw [rewrittenRole_name, rewrittenRole_namespace]
      rw [show existing.ObjectMeta.Namespace = cr.Namespace from hkey.1,
        show existing.ObjectMeta.Name = _ from hkey.2]
      exact hfind
    have := findObject_replaceObject Role.ObjectMeta (rewrittenRole d r cr existing)
      existing w.store.roles h'
    rw [rewrittenRole_name, rewrittenRole_namespace,
      show existing.ObjectMeta.Namespace = cr.Namespace from hkey.1,
      show existing.ObjectMeta.Name = _ from hkey.2] at this
    exact this
  | none =>
    rw [reconcileApplicationSetRole_absent d r cr w hs wf hfind] at h
    simp only [Prod.mk.injEq] at h
    obtain ⟨⟨h1, h2⟩, h3⟩ := h
    subst h3
    refine ⟨_, h1.symm, h2.symm, ?_, rewrittenRole_created d r cr hstable, rfl, rfl, rfl⟩
    rw [findObject_append_none _ _ _ _ _ hfind]
    simp [hasKey, setControllerReferenceIgnoringError_name,
      setControllerReferenceIgnoringError_namespace, setAppSetLabels_name,
      setAppSetLabels_namespace, wf.role_namespace]

/-! ### The role binding, on a store that serves its calls -/

theorem setAppSetLabels_withOwnerReferences (m : ObjectMeta) (refs : List OwnerReference) :
    setAppSetLabels { setAppSetLabels m with OwnerReferences := refs }
      = { setAppSetLabels m with OwnerReferences := refs } := by
  have h := setAppSetLabels_idem m
  have e : setAppSetLabels { setAppSetLabels m with OwnerReferences := refs }
      = { setAppSetLabels (setAppSetLabels m) with OwnerReferences := refs } := rfl
  rw [e, h]

/-- An object that carries the applicationset labels over labels that a read
has filled is read back, and labelled again, as it is. -/
theorem setAppSetLabels_decodeObjectMeta (c : Client) (obj m : ObjectMeta)
    (refs : List OwnerReference) (h : c.decodeMap obj.Labels m.Labels = m.Labels) :
    setAppSetLabels (c.decodeObjectMeta obj { setAppSetLabels m with OwnerReferences := refs })
      = { setAppSetLabels m with OwnerReferences := refs } := by
  have hfix : c.decodeObjectMeta obj { setAppSetLabels m with OwnerReferences := refs }
      = { setAppSetLabels m with OwnerReferences := refs } :=
    Client.decodeObjectMeta_of_labels c obj _ (Client.decodeMap_setAppSetLabels c obj.Labels m h)
  rw [hfix, setAppSetLabels_withOwnerReferences]

theorem reconcileApplicationSetRoleBinding_found (d : Deps) (r : ReconcileArgoCD) (cr : ArgoCD)
    (role : Role) (sa : ServiceAccount) (w : World) (hs : r.client.Served)
    (existing : RoleBinding) (refs : List OwnerReference)
    (h : findObject RoleBinding.ObjectMeta cr.Namespace
      (d.newRoleBindingWithname "applicationset-controller" cr).ObjectMeta.Name
      w.store.roleBindings = some existing)
    (href : r.SetControllerReference cr (setAppSetLabels (r.client.decodeRoleBinding
      (d.newRoleBindingWithname "applicationset-controller" cr) existing).ObjectMeta)
        = Except.ok refs) :
    reconcileApplicationSetRoleBinding d r cr role sa w =
      (none,
       { store := { w.store with roleBindings := (replaceObject RoleBinding.ObjectMeta
           (RoleBinding.mk { setAppSetLabels (r.client.decodeRoleBinding
               (d.newRoleBindingWithname "applicationset-controller" cr) existing).ObjectMeta with
               OwnerReferences := refs }
             { APIGroup := GroupName, Kind := "Role", Name := role.ObjectMeta.Name }
             [{ Kind := ServiceAccountKind, APIGroup := "", Name := sa.ObjectMeta.Name,
                Namespace := sa.ObjectMeta.Namespace }])
           w.store.roleBindings) },
         writes := w.writes ++ [Write.update (Object.roleBinding
           (RoleBinding.mk { setAppSetLabels (r.client.decodeRoleBinding
               (d.newRoleBindingWithname "applicationset-controller" cr) existing).ObjectMeta with
               OwnerReferences := refs }
             { APIGroup := GroupName, Kind := "Role", Name := role.ObjectMeta.Name }
             [{ Kind := ServiceAccountKind, APIGroup := "", Name := sa.ObjectMeta.Name,
                Namespace := sa.ObjectMeta.Namespace }]))] }) := by
  have hget : r.client.Get w cr.Namespace
      (d.newRoleBindingWithname "applicationset-controller" cr).ObjectMeta.Name
      (d.newRoleBindingWithname "applicationset-controller" cr)
      = Except.ok (r.client.decodeRoleBinding
          (d.newRoleBindingWithname "applicationset-controller" cr) existing) :=
    Client.Get_found r.client hs w _ _ _ existing h
  have hkey := (hasKey_iff _ _ _).1 (findObject_hasKey _ _ _ _ _ h)
  have hupdate := Client.Update_found r.client hs w
    (RoleBinding.mk { setAppSetLabels (r.client.decodeRoleBinding
        (d.newRoleBindingWithname "applicationset-controller" cr) existing).ObjectMeta with
        OwnerReferences := refs }
      { APIGroup := GroupName, Kind := "Role", Name := role.ObjectMeta.Name }
      [{ Kind := ServiceAccountKind, APIGroup := "", Name := sa.ObjectMeta.Name,
         Namespace := sa.ObjectMeta.Namespace }]) existing
    (by
      have h' : findObject RoleBinding.ObjectMeta existing.ObjectMeta.Namespace
          existing.ObjectMeta.Name w.store.roleBindings = some existing := by
        rw [show existing.ObjectMeta.Namespace = cr.Namespace from hkey.1,
          show existing.ObjectMeta.Name = _ from hkey.2]
        exact h
      exact h')
  simp only [reconcileApplicationSetRoleBinding, hget, href, hupdate]
  rfl

theorem reconcileApplicationSetRoleBinding_absent (d : Deps) (r : ReconcileArgoCD)
    (cr : ArgoCD) (role : Role) (sa : ServiceAccount) (w : World) (hs : r.client.Served)
    (wf : d.WellFormed) (refs : List OwnerReference)
    (h : findObject RoleBinding.ObjectMeta cr.Namespace
      (d.newRoleBindingWithname "applicationset-controller" cr).ObjectMeta.Name
      w.store.roleBindings = none)
    (href : r.SetControllerReference cr
      (setAppSetLabels (d.newRoleBindingWithname "applicationset-controller" cr).ObjectMeta)
        = Except.ok refs) :
    reconcileApplicationSetRoleBinding d r cr role sa w =
      (none,
       { store := { w.store with roleBindings := w.store.roleBindings ++
           [RoleBinding.mk { setAppSetLabels
               (d.newRoleBindingWithname "applicationset-controller" cr).ObjectMeta with
               OwnerReferences := refs }
             { APIGroup := GroupName, Kind := "Role", Name := role.ObjectMeta.Name }
             [{ Kind := ServiceAccountKind, APIGroup := "", Name := sa.ObjectMeta.Name,
                Namespace := sa.ObjectMeta.Namespace }]] },
         writes := w.writes ++ [Write.create (Object.roleBinding
           (RoleBinding.mk { setAppSetLabels
               (d.newRoleBindingWithname "applicationset-controller" cr).ObjectMeta with
               OwnerReferences := refs }
             { APIGroup := GroupName, Kind := "Role", Name := role.ObjectMeta.Name }
             [{ Kind := ServiceAccountKind, APIGroup := "", Name := sa.ObjectMeta.Name,
                Namespace := sa.ObjectMeta.Namespace }]))] }) := by
  have hget : r.client.Get w cr.Namespace
      (d.newRoleBindingWithname "applicationset-controller" cr).ObjectMeta.Name
      (d.newRoleBindingWithname "applicationset-controller" cr)
      = Except.error (NewNotFound _ _) :=
    Client.Get_absent r.client hs w _ _ _ h
  have hcreate := Client.Create_absent r.client hs w
    (RoleBinding.mk { setAppSetLabels
        (d.newRoleBindingWithname "applicationset-controller" cr).ObjectMeta with
        OwnerReferences := refs }
      { APIGroup := GroupName, Kind := "Role", Name := role.ObjectMeta.Name }
      [{ Kind := ServiceAccountKind, APIGroup := "", Name := sa.ObjectMeta.Name,
         Namespace := sa.ObjectMeta.Namespace }])
    (by simpa [setAppSetLabels_name, setAppSetLabels_namespace, wf.roleBinding_namespace]
          using h)
  simp only [reconcileApplicationSetRoleBinding, hget, IsNotFound_NewNotFound,
    Bool.true_eq_false, if_false, href, hcreate]
  rfl

theorem reconcileApplicationSetRoleBinding_step (d : Deps) (r : ReconcileArgoCD) (cr : ArgoCD)
    (role : Role) (sa : ServiceAccount) (w w' : World) (hs : r.client.Served)
    (wf : d.WellFormed) (hstable : r.OwnerReferenceStable cr)
    (h : reconcileApplicationSetRoleBinding d r cr role sa w = (none, w')) :
    ∃ rb : RoleBinding,
      findObject RoleBinding.ObjectMeta cr.Namespace
        (d.newRoleBindingWithname "applicationset-controller" cr).ObjectMeta.Name
        w'.store.roleBindings = some rb ∧
      setAppSetLabels (r.client.decodeRoleBinding
        (d.newRoleBindingWithname "applicationset-controller" cr) rb).ObjectMeta
          = rb.ObjectMeta ∧
      rb.RoleRef = { APIGroup := GroupName, Kind := "Role", Name := role.ObjectMeta.Name } ∧
      rb.Subjects = [{ Kind := ServiceAccountKind, APIGroup := "", Name := sa.ObjectMeta.Name,
                       Namespace := sa.ObjectMeta.Namespace }] ∧
      r.SetControllerReference cr rb.ObjectMeta = Except.ok rb.ObjectMeta.OwnerReferences ∧
      w'.store.serviceAccounts = w.store.serviceAccounts ∧
      w'.store.roles = w.store.roles ∧
      w'.store.deployments = w.store.deployments := by
  cases hfind : findObject RoleBinding.ObjectMeta cr.Namespace
      (d.newRoleBindingWithname "applicationset-controller" cr).ObjectMeta.Name
      w.store.roleBindings with
  | some existing =>
    have hget : r.client.Get w cr.Namespace
        (d.newRoleBindingWithname "applicationset-controller" cr).ObjectMeta.Name
        (d.newRoleBindingWithname "applicationset-controller" cr)
        = Except.ok (r.client.decodeRoleBinding
            (d.newRoleBindingWithname "applicationset-controller" cr) existing) :=
      Client.Get_found r.client hs w _ _ _ existing hfind
    cases href : r.SetControllerReference cr (setAppSetLabels (r.client.decodeRoleBinding
        (d.newRoleBindingWithname "applicationset-controller" cr) existing).ObjectMeta) with
    | error e =>
      simp [reconcileApplicationSetRoleBinding, hget, href] at h
    | ok refs =>
      rw [reconcileApplicationSetRoleBinding_found d r cr role sa w hs existing refs hfind href]
        at h
      simp only [Prod.mk.injEq, true_and] at h
      subst h
      have hkey := (hasKey_iff _ _ _).1 (findObject_hasKey _ _ _ _ _ hfind)
      refine ⟨RoleBinding.mk { setAppSetLabels (r.client.decodeRoleBinding
              (d.newRoleBindingWithname "applicationset-controller" cr) existing).ObjectMeta with
            OwnerReferences := refs }
          { APIGroup := GroupName, Kind := "Role", Name := role.ObjectMeta.Name }
          [{ Kind := ServiceAccountKind, APIGroup := "", Name := sa.ObjectMeta.Name,
             Namespace := sa.ObjectMeta.Namespace }],
        ?_, ?_, rfl, rfl, hstable _ refs href, rfl, rfl, rfl⟩
      · have h' : findObject RoleBinding.ObjectMeta existing.ObjectMeta.Namespace
            existing.ObjectMeta.Name w.store.roleBindings = some existing := by
          rw [show existing.ObjectMeta.Namespace = cr.Namespace from hkey.1,
            show existing.ObjectMeta.Name = _ from hkey.2]
          exact hfind
        have := findObject_replaceObject RoleBinding.ObjectMeta
          (RoleBinding.mk { setAppSetLabels (r.client.decodeRoleBinding
              (d.newRoleBindingWithname "applicationset-controller" cr) existing).ObjectMeta with
              OwnerReferences := refs }
            { APIGroup := GroupName, Kind := "Role", Name := role.ObjectMeta.Name }
            [{ Kind := ServiceAccountKind, APIGroup := "", Name := sa.ObjectMeta.Name,
               Namespace := sa.ObjectMeta.Namespace }])
          existing w.store.roleBindings h'
        have this' : findObject RoleBinding.ObjectMeta existing.ObjectMeta.Namespace
            existing.ObjectMeta.Name _ = _ := this
        rw [show existing.ObjectMeta.Namespace = cr.Namespace from hkey.1,
          show existing.ObjectMeta.Name = _ from hkey.2] at this'
        exact this'
      · exact setAppSetLabels_decodeObjectMeta r.client
          (d.newRoleBindingWithname "applicationset-controller" cr).ObjectMeta
          (r.client.decodeObjectMeta
            (d.newRoleBindingWithname "applicationset-controller" cr).ObjectMeta
            existing.ObjectMeta) refs (Client.decodeMap_idem _ _ _)
  | none =>
    have hget : r.client.Get w cr.Namespace
        (d.newRoleBindingWithname "applicationset-controller" cr).ObjectMeta.Name
        (d.newRoleBindingWithname "applicationset-controller" cr)
        = Except.error (NewNotFound _ _) :=
      Client.Get_absent r.client hs w _ _ _ hfind
    cases href : r.SetControllerReference cr
        (setAppSetLabels (d.newRoleBindingWithname "applicationset-controller" cr).ObjectMeta)
      with
    | error e =>
      simp [reconcileApplicationSetRoleBinding, hget, IsNotFound_NewNotFound, href] at h
    | ok refs =>
      rw [reconcileApplicationSetRoleBinding_absent d r cr role sa w hs wf refs hfind href] at h
      simp only [Prod.mk.injEq, true_and] at h
      subst h
      refine ⟨RoleBinding.mk { setAppSetLabels
            (d.newRoleBindingWithname "applicationset-controller" cr).ObjectMeta with
            OwnerReferences := refs }
          { APIGroup := GroupName, Kind := "Role", Name := role.ObjectMeta.Name }
          [{ Kind := ServiceAccountKind, APIGroup := "", Name := sa.ObjectMeta.Name,
             Namespace := sa.ObjectMeta.Namespace }],
        ?_, ?_, rfl, rfl, hstable _ refs href, rfl, rfl, rfl⟩
      · rw [findObject_append_none _ _ _ _ _ hfind]
        simp [hasKey, setAppSetLabels_name, setAppSetLabels_namespace, wf.roleBinding_namespace]
      · exact setAppSetLabels_decodeObjectMeta r.client
          (d.newRoleBindingWithname "applicationset-controller" cr).ObjectMeta
          (d.newRoleBindingWithname "applicationset-controller" cr).ObjectMeta refs
          (Client.decodeMap_self _ _)

/-! ### The deployment, on a store that serves its calls -/

theorem applicationSetDeployment_containers (d : Deps) (getenv : String → String) (cr : ArgoCD)
    (sa : ServiceAccount) (resources : ResourceRequirements) :
    (applicationSetDeployment d getenv cr sa resources).Spec.Template.Spec.Containers
      = applicationSetContainers d getenv cr resources := rfl

theorem applicationSetDeployment_objectMeta (d : Deps) (getenv : String → String) (cr : ArgoCD)
    (sa : ServiceAccount) (resources : ResourceRequirements) :
    (applicationSetDeployment d getenv cr sa resources).ObjectMeta
      = setAppSetLabels
          (d.newDeploymentWithSuffix "applicationset-controller" "controller" cr).ObjectMeta :=
  rfl

theorem applicationSetDeployment_serviceAccountName (d : Deps) (getenv : String → String)
    (cr : ArgoCD) (sa : ServiceAccount) (resources : ResourceRequirements) :
    (applicationSetDeployment d getenv cr sa resources).Spec.Template.Spec.ServiceAccountName
      = sa.ObjectMeta.Name := rfl

theorem Deployment.withContainers_objectMeta (dep : Deployment) (cs : List Container) :
    (dep.withContainers cs).ObjectMeta = dep.ObjectMeta := rfl

theorem Deployment.withContainers_containers (dep : Deployment) (cs : List Container) :
    (dep.withContainers cs).Spec.Template.Spec.Containers = cs := rfl

theorem Deployment.withContainers_self (dep : Deployment) :
    dep.withContainers dep.Spec.Template.Spec.Containers = dep := rfl

theorem applicationSetContainers_head (d : Deps) (getenv : String → String) (cr : ArgoCD)
    (resources : ResourceRequirements) :
    ∃ c, (applicationSetContainers d getenv cr resources).head? = some c := ⟨_, rfl⟩

/-- The deployment that the found path writes is written back as it is by a
second found path. -/
theorem decodeDeployment_rewritten (c : Client) (obj existing : Deployment)
    (cs : List Container) :
    (c.decodeDeployment obj ((c.decodeDeployment obj existing).withContainers cs)).withContainers
        cs
      = (c.decodeDeployment obj existing).withContainers cs := by
  simp only [Client.decodeDeployment, Deployment.withContainers, Client.decodeObjectMeta,
    Client.decodeMap_idem]

/-- The deployment that the not-found path creates is written back as it is by
the found path. -/
theorem decodeDeployment_created (d : Deps) (c : Client) (getenv : String → String)
    (cr : ArgoCD) (sa : ServiceAccount) (resources : ResourceRequirements)
    (refs : List OwnerReference) :
    (c.decodeDeployment
        (d.newDeploymentWithSuffix "applicationset-controller" "controller" cr)
        (Deployment.mk { setAppSetLabels
            (d.newDeploymentWithSuffix "applicationset-controller" "controller"
              cr).ObjectMeta with OwnerReferences := refs }
          (applicationSetDeployment d getenv cr sa resources).Spec)).withContainers
        (applicationSetContainers d getenv cr resources)
      = Deployment.mk { setAppSetLabels
            (d.newDeploymentWithSuffix "applicationset-controller" "controller"
              cr).ObjectMeta with OwnerReferences := refs }
          (applicationSetDeployment d getenv cr sa resources).Spec := by
  have hlabels := Client.decodeMap_setAppSetLabels c
    (d.newDeploymentWithSuffix "applicationset-controller" "controller" cr).ObjectMeta.Labels
    (d.newDeploymentWithSuffix "applicationset-controller" "controller" cr).ObjectMeta
    (Client.decodeMap_self _ _)
  simp only [Client.decodeDeployment, Deployment.withContainers, Client.decodeObjectMeta,
    applicationSetDeployment, hlabels, Client.decodeMap_self]

theorem reconcileApplicationSetDeployment_found (d : Deps) (r : ReconcileArgoCD)
    (getenv : String → String) (cr : ArgoCD) (sa : ServiceAccount) (w : World)
    (hs : r.client.Served) (resources : ResourceRequirements) (existing : Deployment)
    (c : Container)
    (hspec : getApplicationSetResources cr = some resources)
    (h : findObject Deployment.ObjectMeta cr.Namespace
      (d.newDeploymentWithSuffix "applicationset-controller" "controller" cr).ObjectMeta.Name
      w.store.deployments = some existing)
    (hhead : existing.Spec.Template.Spec.Containers.head? = some c) :
    reconcileApplicationSetDeployment d r getenv cr sa w =
      (Outcome.returned none,
       { store := { w.store with deployments := (replaceObject Deployment.ObjectMeta
           ((r.client.decodeDeployment
             (d.newDeploymentWithSuffix "applicationset-controller" "controller" cr)
             existing).withContainers (applicationSetContainers d getenv cr resources))
           w.store.deployments) },
         writes := w.writes ++ [Write.update (Object.deployment
           ((r.client.decodeDeployment
             (d.newDeploymentWithSuffix "applicationset-controller" "controller" cr)
             existing).withContainers (applicationSetContainers d getenv cr resources)))] }) := by
  have hget : FetchObject r.client w cr.Namespace
      (d.newDeploymentWithSuffix "applicationset-controller" "controller" cr).ObjectMeta.Name
      (d.newDeploymentWithSuffix "applicationset-controller" "controller" cr)
      = Except.ok (r.client.decodeDeployment
          (d.newDeploymentWithSuffix "applicationset-controller" "controller" cr) existing) :=
    Client.Get_found r.client hs w _ _ _ existing h
  have hhead' : (r.client.decodeDeployment
      (d.newDeploymentWithSuffix "applicationset-controller" "controller" cr)
      existing).Spec.Template.Spec.Containers.head? = some c := hhead
  have hkey := (hasKey_iff _ _ _).1 (findObject_hasKey _ _ _ _ _ h)
  have hupdate := Client.Update_found r.client hs w
    ((r.client.decodeDeployment
      (d.newDeploymentWithSuffix "applicationset-controller" "controller" cr)
      existing).withContainers (applicationSetContainers d getenv cr resources)) existing
    (by
      have h' : findObject Deployment.ObjectMeta existing.ObjectMeta.Namespace
          existing.ObjectMeta.Name w.store.deployments = some existing := by
        rw [show existing.ObjectMeta.Namespace = cr.Namespace from hkey.1,
          show existing.ObjectMeta.Name = _ from hkey.2]
        exact h
      exact h')
  simp only [reconcileApplicationSetDeployment, hspec, hget, IsObjectFound, hhead', if_true,
    reflectDeepEqual_container_slice, applicationSetDeployment_containers, hupdate]
  rfl

theorem reconcileApplicationSetDeployment_absent (d : Deps) (r : ReconcileArgoCD)
    (getenv : String → String) (cr : ArgoCD) (sa : ServiceAccount) (w : World)
    (hs : r.client.Served) (wf : d.WellFormed) (resources : ResourceRequirements)
    (refs : List OwnerReference)
    (hspec : getApplicationSetResources cr = some resources)
    (h : findObject Deployment.ObjectMeta cr.Namespace
      (d.newDeploymentWithSuffix "applicationset-controller" "controller" cr).ObjectMeta.Name
      w.store.deployments = none)
    (href : r.SetControllerReference cr (setAppSetLabels
      (d.newDeploymentWithSuffix "applicationset-controller" "controller" cr).ObjectMeta)
        = Except.ok refs) :
    reconcileApplicationSetDeployment d r getenv cr sa w =
      (Outcome.returned none,
       { store := { w.store with deployments := w.store.deployments ++
           [Deployment.mk { setAppSetLabels
               (d.newDeploymentWithSuffix "applicationset-controller" "controller"
                 cr).ObjectMeta with OwnerReferences := refs }
             (applicationSetDeployment d getenv cr sa resources).Spec] },
         writes := w.writes ++ [Write.create (Object.deployment
           (Deployment.mk { setAppSetLabels
               (d.newDeploymentWithSuffix "applicationset-controller" "controller"
                 cr).ObjectMeta with OwnerReferences := refs }
             (applicationSetDeployment d getenv cr sa resources).Spec))] }) := by
  have hget : FetchObject r.client w cr.Namespace
      (d.newDeploymentWithSuffix "applicationset-controller" "controller" cr).ObjectMeta.Name
      (d.newDeploymentWithSuffix "applicationset-controller" "controller" cr)
      = Except.error (NewNotFound _ _) :=
    Client.Get_absent r.client hs w _ _ _ h
  have hcreate := Client.Create_absent r.client hs w
    (Deployment.mk { setAppSetLabels
        (d.newDeploymentWithSuffix "applicationset-controller" "controller"
          cr).ObjectMeta with OwnerReferences := refs }
      (applicationSetDeployment d getenv cr sa resources).Spec)
    (by simpa [setAppSetLabels_name, setAppSetLabels_namespace, wf.deployment_namespace]
          using h)
  simp only [reconcileApplicationSetDeployment, hspec, hget, IsObjectFound,
    IsNotFound_NewNotFound, if_true, applicationSetDeployment_objectMeta, href, hcreate]
  rfl

theorem reconcileApplicationSetDeployment_step (d : Deps) (r : ReconcileArgoCD)
    (getenv : String → String) (cr : ArgoCD) (sa : ServiceAccount) (w w' : World)
    (hs : r.client.Served) (wf : d.WellFormed)
    (h : reconcileApplicationSetDeployment d r getenv cr sa w = (Outcome.returned none, w')) :
    ∃ (dep : Deployment) (resources : ResourceRequirements),
      getApplicationSetResources cr = some resources ∧
      findObject Deployment.ObjectMeta cr.Namespace
        (d.newDeploymentWithSuffix "applicationset-controller" "controller" cr).ObjectMeta.Name
        w'.store.deployments = some dep ∧
      (r.client.decodeDeployment
        (d.newDeploymentWithSuffix "applicationset-controller" "controller" cr)
        dep).withContainers (applicationSetContainers d getenv cr resources) = dep ∧
      w'.store.serviceAccounts = w.store.serviceAccounts ∧
      w'.store.roles = w.store.roles ∧
      w'.store.roleBindings = w.store.roleBindings := by
  cases hspec : getApplicationSetResources cr with
  | none => simp [reconcileApplicationSetDeployment, hspec] at h
  | some resources =>
    cases hfind : findObject Deployment.ObjectMeta cr.Namespace
        (d.newDeploymentWithSuffix "applicationset-controller" "controller" cr).ObjectMeta.Name
        w.store.deployments with
    | some existing =>
      have hget : FetchObject r.client w cr.Namespace
          (d.newDeploymentWithSuffix "applicationset-controller" "controller" cr).ObjectMeta.Name
          (d.newDeploymentWithSuffix "applicationset-controller" "controller" cr)
          = Except.ok (r.client.decodeDeployment
              (d.newDeploymentWithSuffix "applicationset-controller" "controller" cr)
              existing) :=
        Client.Get_found r.client hs w _ _ _ existing hfind
      cases hhead : existing.Spec.Template.Spec.Containers.head? with
      | none =>
        have hhead' : (r.client.decodeDeployment
            (d.newDeploymentWithSuffix "applicationset-controller" "controller" cr)
            existing).Spec.Template.Spec.Containers.head? = none := hhead
        simp [reconcileApplicationSetDeployment, hspec, hget, IsObjectFound, hhead'] at h
      | some c =>
        rw [reconcileApplicationSetDeployment_found d r getenv cr sa w hs resources existing c
          hspec hfind hhead] at h
        simp only [Prod.mk.injEq, true_and] at h
        subst h
        have hkey := (hasKey_iff _ _ _).1 (findObject_hasKey _ _ _ _ _ hfind)
        refine ⟨(r.client.decodeDeployment
            (d.newDeploymentWithSuffix "applicationset-controller" "controller" cr)
            existing).withContainers (applicationSetContainers d getenv cr resources),
          resources, rfl, ?_, decodeDeployment_rewritten _ _ _ _, rfl, rfl, rfl⟩
        have h' : findObject Deployment.ObjectMeta existing.ObjectMeta.Namespace
            existing.ObjectMeta.Name w.store.deployments = some existing := by
          rw [show existing.ObjectMeta.Namespace = cr.Namespace from hkey.1,
            show existing.ObjectMeta.Name = _ from hkey.2]
          exact hfind
        have := findObject_replaceObject Deployment.ObjectMeta
          ((r.client.decodeDeployment
            (d.newDeploymentWithSuffix "applicationset-controller" "controller" cr)
            existing).withContainers (applicationSetContainers d getenv cr resources))
          existing w.store.deployments h'
        have this' : findObject Deployment.ObjectMeta existing.ObjectMeta.Namespace
            existing.ObjectMeta.Name _ = _ := this
        rw [show existing.ObjectMeta.Namespace = cr.Namespace from hkey.1,
          show existing.ObjectMeta.Name = _ from hkey.2] at this'
        exact this'
    | none =>
      have hget : FetchObject r.client w cr.Namespace
          (d.newDeploymentWithSuffix "applicationset-controller" "controller" cr).ObjectMeta.Name
          (d.newDeploymentWithSuffix "applicationset-controller" "controller" cr)
          = Except.error (NewNotFound _ _) :=
        Client.Get_absent r.client hs w _ _ _ hfind
      cases href : r.SetControllerReference cr (setAppSetLabels
          (d.newDeploymentWithSuffix "applicationset-controller" "controller" cr).ObjectMeta)
        with
      | error e =>
        simp [reconcileApplicationSetDeployment, hspec, hget, IsObjectFound,
          IsNotFound_NewNotFound, applicationSetDeployment_objectMeta, href] at h
      | ok refs =>
        rw [reconcileApplicationSetDeployment_absent d r getenv cr sa w hs wf resources refs
          hspec hfind href] at h
        simp only [Prod.mk.injEq, true_and] at h
        subst h
        refine ⟨Deployment.mk { setAppSetLabels
              (d.newDeploymentWithSuffix "applicationset-controller" "controller"
                cr).ObjectMeta with OwnerReferences := refs }
            (applicationSetDeployment d getenv cr sa resources).Spec,
          resources, rfl, ?_, decodeDeployment_created d r.client getenv cr sa resources refs,
          rfl, rfl, rfl⟩
        rw [findObject_append_none _ _ _ _ _ hfind]
        simp [hasKey, setAppSetLabels_name, setAppSetLabels_namespace, wf.deployment_namespace]

/-! ### The whole pass, on a store that serves its calls -/

theorem findObject_self_key {α : Type} (objectMeta : α → ObjectMeta) (ns name : String)
    (xs : List α) (x : α) (h : findObject objectMeta ns name xs = some x) :
    findObject objectMeta (objectMeta x).Namespace (objectMeta x).Name xs = some x := by
  have hkey := (hasKey_iff _ _ _).1 (findObject_hasKey _ _ _ _ _ h)
  rw [hkey.1, hkey.2]; exact h

/-- On a settled store the pass rewrites the role, the role binding and the
deployment with what is already stored, and returns no error. -/
theorem reconcileApplicationSetController_of_settled (d : Deps) (r : ReconcileArgoCD)
    (getenv : String → String) (cr : ArgoCD) (w : World) (hs : r.client.Served)
    (sa : ServiceAccount) (role : Role) (rb : RoleBinding) (dep : Deployment)
    (resources : ResourceRequirements)
    (h : Settled d r getenv cr w.store sa role rb dep resources) :
    reconcileApplicationSetController d r getenv cr w =
      (Outcome.returned none,
       { store := w.store,
         writes := w.writes ++ [Write.update (Object.role role),
           Write.update (Object.roleBinding rb), Write.update (Object.deployment dep)] }) := by
  obtain ⟨hres, hsa, hrole, hrewritten, hrb, hlabels, hroleRef, hsubjects, hrbOwner, hdep,
    hdepFixed⟩ := h
  -- the service account is found
  have e1 := reconcileApplicationSetServiceAccount_found d r cr w hs sa hsa
  -- the role is rewritten as it is
  have e2 : reconcileApplicationSetRole d r cr w = ((some role, none),
      { store := w.store, writes := w.writes ++ [Write.update (Object.role role)] }) := by
    have e := reconcileApplicationSetRole_found d r cr w hs role hrole
    rw [hrewritten, replaceObject_self Role.ObjectMeta role w.store.roles
      (findObject_self_key _ _ _ _ _ hrole)] at e
    exact e
  -- the role binding is rewritten as it is
  have hrb' : RoleBinding.mk
      { setAppSetLabels (r.client.decodeRoleBinding
          (d.newRoleBindingWithname "applicationset-controller" cr) rb).ObjectMeta with
        OwnerReferences := rb.ObjectMeta.OwnerReferences }
      { APIGroup := GroupName, Kind := "Role", Name := role.ObjectMeta.Name }
      [{ Kind := ServiceAccountKind, APIGroup := "",
         Name := (r.client.decodeServiceAccount (serviceAccountForRead d cr) sa).ObjectMeta.Name,
         Namespace :=
           (r.client.decodeServiceAccount (serviceAccountForRead d cr) sa).ObjectMeta.Namespace }]
      = rb := by
    have hname : (r.client.decodeServiceAccount (serviceAccountForRead d cr)
        sa).ObjectMeta.Name = sa.ObjectMeta.Name := rfl
    have hnamespace : (r.client.decodeServiceAccount (serviceAccountForRead d cr)
        sa).ObjectMeta.Namespace = sa.ObjectMeta.Namespace := rfl
    rw [hname, hnamespace, ← hroleRef, ← hsubjects, hlabels]
  have e3 : reconcileApplicationSetRoleBinding d r cr role
      (r.client.decodeServiceAccount (serviceAccountForRead d cr) sa)
      { store := w.store, writes := w.writes ++ [Write.update (Object.role role)] } = (none,
      { store := w.store, writes := w.writes ++ [Write.update (Object.role role)]
          ++ [Write.update (Object.roleBinding rb)] }) := by
    have e := reconcileApplicationSetRoleBinding_found d r cr role
      (r.client.decodeServiceAccount (serviceAccountForRead d cr) sa)
      { store := w.store, writes := w.writes ++ [Write.update (Object.role role)] } hs rb
      rb.ObjectMeta.OwnerReferences hrb (by rw [hlabels]; exact hrbOwner)
    rw [hrb', replaceObject_self RoleBinding.ObjectMeta rb w.store.roleBindings
      (findObject_self_key _ _ _ _ _ hrb)] at e
    exact e
  -- the deployment is rewritten as it is
  obtain ⟨c, hc⟩ := applicationSetContainers_head d getenv cr resources
  have hcontainers : dep.Spec.Template.Spec.Containers
      = applicationSetContainers d getenv cr resources := by
    have := congrArg (fun x : Deployment => x.Spec.Template.Spec.Containers) hdepFixed
    exact this.symm
  have e4 : reconcileApplicationSetDeployment d r getenv cr
      (r.client.decodeServiceAccount (serviceAccountForRead d cr) sa)
      { store := w.store, writes := w.writes ++ [Write.update (Object.role role)]
          ++ [Write.update (Object.roleBinding rb)] } = (Outcome.returned none,
      { store := w.store, writes := w.writes ++ [Write.update (Object.role role)]
          ++ [Write.update (Object.roleBinding rb)] ++ [Write.update (Object.deployment dep)] }) := by
    have e := reconcileApplicationSetDeployment_found d r getenv cr
      (r.client.decodeServiceAccount (serviceAccountForRead d cr) sa)
      { store := w.store, writes := w.writes ++ [Write.update (Object.role role)]
          ++ [Write.update (Object.roleBinding rb)] } hs resources dep c hres hdep
      (by rw [hcontainers]; exact hc)
    rw [hdepFixed, replaceObject_self Deployment.ObjectMeta
      dep w.store.deployments (findObject_self_key _ _ _ _ _ hdep)] at e
    exact e
  simp only [reconcileApplicationSetController, e1, e2, e3, e4]
  simp only [List.append_assoc, List.singleton_append, List.cons_append, List.nil_append]

/-- A pass that returns no error leaves the store settled. -/
theorem settled_of_reconcileApplicationSetController (d : Deps) (r : ReconcileArgoCD)
    (getenv : String → String) (cr : ArgoCD) (w w' : World) (hs : r.client.Served)
    (wf : d.WellFormed) (hstable : r.OwnerReferenceStable cr)
    (h : reconcileApplicationSetController d r getenv cr w = (Outcome.returned none, w')) :
    ∃ (sa : ServiceAccount) (role : Role) (rb : RoleBinding) (dep : Deployment)
      (resources : ResourceRequirements),
      Settled d r getenv cr w'.store sa role rb dep resources := by
  unfold reconcileApplicationSetController at h
  rcases h1 : reconcileApplicationSetServiceAccount d r cr w with ⟨⟨saRes, saErr⟩, w1⟩
  rw [h1] at h
  cases saErr with
  | some e => simp at h
  | none =>
    obtain ⟨sa, stored, hsaRes, hsaName, hsaNamespace, hsa, hr1, hb1, hd1⟩ :=
      reconcileApplicationSetServiceAccount_step d r cr w w1 hs wf saRes h1
    subst hsaRes
    rcases h2 : reconcileApplicationSetRole d r cr w1 with ⟨⟨roleRes, roleErr⟩, w2⟩
    obtain ⟨role, hroleRes, hroleErr, hrole, hrewritten, hs2, hb2, hd2⟩ :=
      reconcileApplicationSetRole_step d r cr w1 w2 hs wf hstable roleRes roleErr h2
    subst hroleRes hroleErr
    simp only [h2] at h
    rcases h3 : reconcileApplicationSetRoleBinding d r cr role sa w2 with ⟨rbErr, w3⟩
    rw [h3] at h
    cases rbErr with
    | some e => simp at h
    | none =>
      obtain ⟨rb, hrb, hlabels, hroleRef, hsubjects, hrbOwner, hs3, hr3, hd3⟩ :=
        reconcileApplicationSetRoleBinding_step d r cr role sa w2 w3 hs wf hstable h3
      simp only at h
      rcases h4 : reconcileApplicationSetDeployment d r getenv cr sa w3 with ⟨out, w4⟩
      rw [h4] at h
      cases out with
      | panicked msg => simp at h
      | returned err =>
        cases err with
        | some e => simp at h
        | none =>
          simp only [Prod.mk.injEq, true_and] at h
          subst h
          obtain ⟨dep, resources, hres, hdep, hdepFixed, hs4, hr4, hb4⟩ :=
            reconcileApplicationSetDeployment_step d r getenv cr sa w3 w4 hs wf h4
          refine ⟨stored, role, rb, dep, resources, hres, ?_, ?_, hrewritten, ?_, hlabels,
            hroleRef, ?_, hrbOwner, hdep, hdepFixed⟩
          · rw [hs4, hs3, hs2]; exact hsa
          · rw [hr4, hr3]; exact hrole
          · rw [hb4]; exact hrb
          · rw [hsubjects, hsaName, hsaNamespace]

/-! ### The concrete instances meet the conditions -/

theorem exampleDeps_wellFormed : exampleDeps.WellFormed :=
  ⟨fun _ _ => rfl, fun _ _ _ => rfl, fun _ _ _ => rfl, fun _ _ => rfl, fun _ _ _ => rfl⟩

theorem healthyClient_served : healthyClient.Served := fun _ _ => rfl

theorem exampleReconciler_ownerReferenceStable (cr : ArgoCD) :
    exampleReconciler.OwnerReferenceStable cr := by
  intro obj refs h
  simp only [exampleReconciler, exampleSetControllerReference] at h ⊢
  split at h
  · cases h
  · rename_i hns
    split at h
    · cases h
    · rename_i hany
      injection h with h
      subst h
      simp only [Bool.not_eq_true, List.any_eq_false] at hany
      have hhead : (controllerRefOf cr).UID = cr.UID := rfl
      have hany' : (controllerRefOf cr :: obj.OwnerReferences.filter
          (fun o => decide (o.UID ≠ cr.UID))).any
            (fun o => o.Controller && decide (o.UID ≠ cr.UID)) = false := by
        rw [List.any_eq_false]
        intro o ho
        rcases List.mem_cons.1 ho with ho | ho
        · rw [ho, hhead]; simp
        · rw [hany o (List.mem_of_mem_filter ho)]; simp
      have hfilter : (controllerRefOf cr :: obj.OwnerReferences.filter
          (fun o => decide (o.UID ≠ cr.UID))).filter (fun o => decide (o.UID ≠ cr.UID))
          = obj.OwnerReferences.filter (fun o => decide (o.UID ≠ cr.UID)) := by
        simp [List.filter_cons, hhead, List.filter_filter]
      rw [if_neg hns, if_neg (by rw [hany']; simp), hfilter]

/-! ### Idempotence -/

/-- C7: on a store that serves the calls, after a call of
`reconcileApplicationSetController` that returned no error, a second call
returns no error as well and leaves the store exactly as the first call left
it (the constructors are assumed to place the children in the namespace of
the parent, and setting the controller reference twice to give what setting
it once gives). -/
theorem reconcileApplicationSetController_idempotent (d : Deps) (r : ReconcileArgoCD)
    (getenv : String → String) (cr : ArgoCD) (w w' : World) (hs : r.client.Served)
    (wf : d.WellFormed) (hstable : r.OwnerReferenceStable cr)
    (hfirst : reconcileApplicationSetController d r getenv cr w = (Outcome.returned none, w')) :
    (reconcileApplicationSetController d r getenv cr w').1 = Outcome.returned none ∧
    (reconcileApplicationSetController d r getenv cr w').2.store = w'.store := by
  obtain ⟨sa, role, rb, dep, resources, hsettled⟩ :=
    settled_of_reconcileApplicationSetController d r getenv cr w w' hs wf hstable hfirst
  rw [reconcileApplicationSetController_of_settled d r getenv cr w' hs sa role rb dep resources
    hsettled]
  exact ⟨rfl, rfl⟩

/-- Instance of C7: the example parent reconciled twice from the empty store. -/
theorem reconcileApplicationSetController_idempotent_witness :
    (reconcileApplicationSetController exampleDeps exampleReconciler emptyEnv exampleCR
      reconciledWorld).1 = Outcome.returned none ∧
    (reconcileApplicationSetController exampleDeps exampleReconciler emptyEnv exampleCR
      reconciledWorld).2.store = reconciledWorld.store :=
  reconcileApplicationSetController_idempotent exampleDeps exampleReconciler emptyEnv exampleCR
    emptyWorld reconciledWorld healthyClient_served exampleDeps_wellFormed
    (exampleReconciler_ownerReferenceStable exampleCR) (by rfl)

/-- C2 (as stated) fails: after a first call that returned no error, the
second call issues an update for the role, for the role binding and for the
deployment. -/
theorem reconcileApplicationSetController_second_call_updates :
    reconcileApplicationSetController exampleDeps exampleReconciler emptyEnv exampleCR emptyWorld
      = (Outcome.returned none, reconciledWorld) ∧
    ((reconcileApplicationSetController exampleDeps exampleReconciler emptyEnv exampleCR
        reconciledWorld).2.writes.drop reconciledWorld.writes.length).map
          (fun x => (x.isCreate, x.object.kind))
      = [(false, Kind.role), (false, Kind.roleBinding), (false, Kind.deployment)] := by
  refine ⟨by rfl, by decide⟩

/-- C2 (amended): on a store that serves the calls, after a call of
`reconcileApplicationSetController` that returned no error, a second call
issues no create, and issues exactly one update for the role and exactly one
for the role binding, each writing the object that is already stored. -/
theorem reconcileApplicationSetController_second_call_writes (d : Deps) (r : ReconcileArgoCD)
    (getenv : String → String) (cr : ArgoCD) (w w' : World) (hs : r.client.Served)
    (wf : d.WellFormed) (hstable : r.OwnerReferenceStable cr)
    (hfirst : reconcileApplicationSetController d r getenv cr w = (Outcome.returned none, w')) :
    ∃ (role : Role) (rb : RoleBinding) (issued : List Write),
      findObject Role.ObjectMeta cr.Namespace
        (d.newRole "applicationset-controller" policyRules cr).ObjectMeta.Name w'.store.roles
          = some role ∧
      findObject RoleBinding.ObjectMeta cr.Namespace
        (d.newRoleBindingWithname "applicationset-controller" cr).ObjectMeta.Name
        w'.store.roleBindings = some rb ∧
      (reconcileApplicationSetController d r getenv cr w').2.writes = w'.writes ++ issued ∧
      issued.all (fun x => !x.isCreate) = true ∧
      issued.filter (fun x => decide (x.object.kind = Kind.role))
        = [Write.update (Object.role role)] ∧
      issued.filter (fun x => decide (x.object.kind = Kind.roleBinding))
        = [Write.update (Object.roleBinding rb)] := by
  obtain ⟨sa, role, rb, dep, resources, hsettled⟩ :=
    settled_of_reconcileApplicationSetController d r getenv cr w w' hs wf hstable hfirst
  refine ⟨role, rb, [Write.update (Object.role role), Write.update (Object.roleBinding rb),
    Write.update (Object.deployment dep)], hsettled.2.2.1, hsettled.2.2.2.2.1, ?_, by rfl,
    by rfl, by rfl⟩
  rw [reconcileApplicationSetController_of_settled d r getenv cr w' hs sa role rb dep resources
    hsettled]

/-- Instance of C2 (amended): the example parent reconciled twice from the empty store. -/
theorem reconcileApplicationSetController_second_call_writes_witness :
    ∃ (role : Role) (rb : RoleBinding) (issued : List Write),
      findObject Role.ObjectMeta exampleCR.Namespace
        (exampleDeps.newRole "applicationset-controller" policyRules exampleCR).ObjectMeta.Name
        reconciledWorld.store.roles = some role ∧
      findObject RoleBinding.ObjectMeta exampleCR.Namespace
        (exampleDeps.newRoleBindingWithname "applicationset-controller"
          exampleCR).ObjectMeta.Name
        reconciledWorld.store.roleBindings = some rb ∧
      (reconcileApplicationSetController exampleDeps exampleReconciler emptyEnv exampleCR
        reconciledWorld).2.writes = reconciledWorld.writes ++ issued ∧
      issued.all (fun x => !x.isCreate) = true ∧
      issued.filter (fun x => decide (x.object.kind = Kind.role))
        = [Write.update (Object.role role)] ∧
      issued.filter (fun x => decide (x.object.kind = Kind.roleBinding))
        = [Write.update (Object.roleBinding rb)] :=
  reconcileApplicationSetController_second_call_writes exampleDeps exampleReconciler emptyEnv
    exampleCR emptyWorld reconciledWorld healthyClient_served exampleDeps_wellFormed
    (exampleReconciler_ownerReferenceStable exampleCR) (by rfl)

/-! ### The creation path -/

theorem getApplicationSetResources_present (cr : ArgoCD) (a : ArgoCDApplicationSet)
    (h : cr.Spec.ApplicationSet = some a) :
    ∃ resources, getApplicationSetResources cr = some resources := by
  cases hr : a.Resources with
  | none =>
    exact ⟨{ Limits := [], Requests := [] }, by simp [getApplicationSetResources, h, hr]⟩
  | some res => exact ⟨res, by simp [getApplicationSetResources, h, hr]⟩

/-- C1: for a parent with an ApplicationSet spec and a store that serves the
calls and holds none of the four applicationset-controller children, with the
owner reference assigned successfully, `reconcileApplicationSetController`
returns no error and issues exactly four writes, all creates: the service
account, the role, the role binding and the deployment, in that order. The
role binding refers to the created role and has the created service account
as its only subject, the deployment runs under the created service account,
and each of the four objects carries the three applicationset labels. -/
theorem reconcileApplicationSetController_creates (d : Deps) (r : ReconcileArgoCD)
    (getenv : String → String) (cr : ArgoCD) (w : World) (a : ArgoCDApplicationSet)
    (refsSA refsRB refsDeploy : List OwnerReference)
    (hs : r.client.Served) (wf : d.WellFormed)
    (hspec : cr.Spec.ApplicationSet = some a)
    (hnoSA : findObject ServiceAccount.ObjectMeta cr.Namespace
      (d.newServiceAccountWithName "applicationset-controller" cr).ObjectMeta.Name
      w.store.serviceAccounts = none)
    (hnoRole : findObject Role.ObjectMeta cr.Namespace
      (d.newRole "applicationset-controller" policyRules cr).ObjectMeta.Name w.store.roles
        = none)
    (hnoRB : findObject RoleBinding.ObjectMeta cr.Namespace
      (d.newRoleBindingWithname "applicationset-controller" cr).ObjectMeta.Name
      w.store.roleBindings = none)
    (hnoDeploy : findObject Deployment.ObjectMeta cr.Namespace
      (d.newDeploymentWithSuffix "applicationset-controller" "controller" cr).ObjectMeta.Name
      w.store.deployments = none)
    (hrefSA : r.SetControllerReference cr
      (setAppSetLabels (d.newServiceAccountWithName "applicationset-controller" cr).ObjectMeta)
        = Except.ok refsSA)
    (hrefRB : r.SetControllerReference cr
      (setAppSetLabels (d.newRoleBindingWithname "applicationset-controller" cr).ObjectMeta)
        = Except.ok refsRB)
    (hrefDeploy : r.SetControllerReference cr (setAppSetLabels
      (d.newDeploymentWithSuffix "applicationset-controller" "controller" cr).ObjectMeta)
        = Except.ok refsDeploy) :
    ∃ (sa : ServiceAccount) (role : Role) (rb : RoleBinding) (dep : Deployment) (w' : World),
      reconcileApplicationSetController d r getenv cr w = (Outcome.returned none, w') ∧
      w'.writes = w.writes ++ [Write.create (Object.serviceAccount sa),
        Write.create (Object.role role), Write.create (Object.roleBinding rb),
        Write.create (Object.deployment dep)] ∧
      rb.RoleRef = { APIGroup := GroupName, Kind := "Role", Name := role.ObjectMeta.Name } ∧
      rb.Subjects = [{ Kind := "ServiceAccount", APIGroup := "", Name := sa.ObjectMeta.Name,
                       Namespace := sa.ObjectMeta.Namespace }] ∧
      dep.Spec.Template.Spec.ServiceAccountName = sa.ObjectMeta.Name ∧
      HasAppSetLabels sa.ObjectMeta ∧ HasAppSetLabels role.ObjectMeta ∧
      HasAppSetLabels rb.ObjectMeta ∧ HasAppSetLabels dep.ObjectMeta := by
  obtain ⟨resources, hres⟩ := getApplicationSetResources_present cr a hspec
  -- the service account
  obtain ⟨sa, hsa⟩ : ∃ sa : ServiceAccount, sa = ServiceAccount.mk { setAppSetLabels
      (d.newServiceAccountWithName "applicationset-controller" cr).ObjectMeta with
      OwnerReferences := refsSA } := ⟨_, rfl⟩
  have e1 := reconcileApplicationSetServiceAccount_absent d r cr w hs wf refsSA hnoSA hrefSA
  rw [← hsa] at e1
  obtain ⟨w1, e1, hw1, hr1, hb1, hd1⟩ : ∃ w1 : World,
      reconcileApplicationSetServiceAccount d r cr w = ((some sa, none), w1) ∧
      w1.writes = w.writes ++ [Write.create (Object.serviceAccount sa)] ∧
      w1.store.roles = w.store.roles ∧ w1.store.roleBindings = w.store.roleBindings ∧
      w1.store.deployments = w.store.deployments := ⟨_, e1, rfl, rfl, rfl, rfl⟩
  -- the role
  obtain ⟨role, hrole⟩ : ∃ role : Role, role = Role.mk (setControllerReferenceIgnoringError r cr
      (setAppSetLabels (d.newRole "applicationset-controller" policyRules cr).ObjectMeta))
      policyRules := ⟨_, rfl⟩
  have e2 := reconcileApplicationSetRole_absent d r cr w1 hs wf (by rw [hr1]; exact hnoRole)
  rw [← hrole] at e2
  obtain ⟨w2, e2, hw2, hb2, hd2⟩ : ∃ w2 : World,
      reconcileApplicationSetRole d r cr w1 = ((some role, none), w2) ∧
      w2.writes = w1.writes ++ [Write.create (Object.role role)] ∧
      w2.store.roleBindings = w1.store.roleBindings ∧
      w2.store.deployments = w1.store.deployments := ⟨_, e2, rfl, rfl, rfl⟩
  -- the role binding
  obtain ⟨rb, hrb⟩ : ∃ rb : RoleBinding, rb = RoleBinding.mk { setAppSetLabels
        (d.newRoleBindingWithname "applicationset-controller" cr).ObjectMeta with
        OwnerReferences := refsRB }
      { APIGroup := GroupName, Kind := "Role", Name := role.ObjectMeta.Name }
      [{ Kind := ServiceAccountKind, APIGroup := "", Name := sa.ObjectMeta.Name,
         Namespace := sa.ObjectMeta.Namespace }] := ⟨_, rfl⟩
  have e3 := reconcileApplicationSetRoleBinding_absent d r cr role sa w2 hs wf refsRB
    (by rw [hb2, hb1]; exact hnoRB) hrefRB
  rw [← hrb] at e3
  obtain ⟨w3, e3, hw3, hd3⟩ : ∃ w3 : World,
      reconcileApplicationSetRoleBinding d r cr role sa w2 = (none, w3) ∧
      w3.writes = w2.writes ++ [Write.create (Object.roleBinding rb)] ∧
      w3.store.deployments = w2.store.deployments := ⟨_, e3, rfl, rfl⟩
  -- the deployment
  obtain ⟨dep, hdep⟩ : ∃ dep : Deployment, dep = Deployment.mk { setAppSetLabels
        (d.newDeploymentWithSuffix "applicationset-controller" "controller"
          cr).ObjectMeta with OwnerReferences := refsDeploy }
      (applicationSetDeployment d getenv cr sa resources).Spec := ⟨_, rfl⟩
  have e4 := reconcileApplicationSetDeployment_absent d r getenv cr sa w3 hs wf resources
    refsDeploy hres (by rw [hd3, hd2, hd1]; exact hnoDeploy) hrefDeploy
  rw [← hdep] at e4
  obtain ⟨w4, e4, hw4⟩ : ∃ w4 : World,
      reconcileApplicationSetDeployment d r getenv cr sa w3 = (Outcome.returned none, w4) ∧
      w4.writes = w3.writes ++ [Write.create (Object.deployment dep)] := ⟨_, e4, rfl⟩
  refine ⟨sa, role, rb, dep, w4, ?_, ?_, ?_, ?_, ?_, ?_, ?_, ?_, ?_⟩
  · simp only [reconcileApplicationSetController, e1, e2, e3, e4]
  · simp only [hw4, hw3, hw2, hw1, List.append_assoc, List.singleton_append, List.cons_append,
      List.nil_append]
  · rw [hrb]
  · rw [hrb]; rfl
  · rw [hdep]; rfl
  · rw [hsa]; exact setAppSetLabels_labels _
  · rw [hrole]
    simp only [HasAppSetLabels, setControllerReferenceIgnoringError_labels]
    exact setAppSetLabels_labels _
  · rw [hrb]; exact setAppSetLabels_labels _
  · rw [hdep]; exact setAppSetLabels_labels _

/-- Instance of C1: the example parent reconciled from the empty store. -/
theorem reconcileApplicationSetController_creates_witness :
    ∃ (sa : ServiceAccount) (role : Role) (rb : RoleBinding) (dep : Deployment) (w' : World),
      reconcileApplicationSetController exampleDeps exampleReconciler emptyEnv exampleCR
        emptyWorld = (Outcome.returned none, w') ∧
      w'.writes = emptyWorld.writes ++ [Write.create (Object.serviceAccount sa),
        Write.create (Object.role role), Write.create (Object.roleBinding rb),
        Write.create (Object.deployment dep)] ∧
      rb.RoleRef = { APIGroup := GroupName, Kind := "Role", Name := role.ObjectMeta.Name } ∧
      rb.Subjects = [{ Kind := "ServiceAccount", APIGroup := "", Name := sa.ObjectMeta.Name,
                       Namespace := sa.ObjectMeta.Namespace }] ∧
      dep.Spec.Template.Spec.ServiceAccountName = sa.ObjectMeta.Name ∧
      HasAppSetLabels sa.ObjectMeta ∧ HasAppSetLabels role.ObjectMeta ∧
      HasAppSetLabels rb.ObjectMeta ∧ HasAppSetLabels dep.ObjectMeta :=
  reconcileApplicationSetController_creates exampleDeps exampleReconciler emptyEnv exampleCR
    emptyWorld _ _ _ _ healthyClient_served exampleDeps_wellFormed (by rfl) (by rfl) (by rfl)
    (by rfl) (by rfl) (by rfl) (by rfl) (by rfl)

/-! ### The fingerprint of the TLS secret -/

set_option maxRecDepth 100000

/-- The digest of `foo` followed by `bar` is the SHA-256 digest of `foobar`. -/
theorem computeFingerprint_foo_bar :
    computeFingerprint { certificate := fooBytes, privateKey := barBytes }
      = "c3ab8ff13720e8ad9047dd39466b3c8974e592c2fa383d4a3960714caef0c4f2" := by
  decide

/-- The order of the two fields matters: `bar` followed by `foo` has another digest. -/
theorem computeFingerprint_bar_foo :
    computeFingerprint { certificate := barBytes, privateKey := fooBytes }
      = "88ecde925da3c6f8ec3d140683da9d2a422f26c1ae1d9212da1e5a53416dcc88" := by
  decide

/-- C6: when `reconcileRepoServerTLSSecret` returns without error, the
checksum recorded in the status of the parent is the lowercase hexadecimal
SHA-256 digest of the certificate bytes followed by the private-key bytes,
whatever digest was recorded before (none, the same, or that of another
certificate). -/
theorem reconcileRepoServerTLSSecret_checksum (cr : ArgoCD) (material : TLSSecretMaterial)
    (marker : String) (updateError : DependentWorkload → Option GoError)
    (dependents : List DependentWorkload)
    (h : (reconcileRepoServerTLSSecret cr material marker updateError dependents).1 = none) :
    (reconcileRepoServerTLSSecret cr material marker updateError dependents).2.1.Status.RepoTLSChecksum
      = hexEncode (sha256 (material.certificate ++ material.privateKey)) := by
  unfold reconcileRepoServerTLSSecret at h ⊢
  rcases hp : propagate (hasChanged cr (computeFingerprint material)) marker updateError
    dependents with ⟨err, deps⟩
  simp only [hp] at h ⊢
  cases err with
  | some e => simp at h
  | none => rfl

/-- Instance of C6: the three passes of secret_test.go, each returning no
error: the first observation, the unchanged secret, and the certificate
replaced. -/
theorem reconcileRepoServerTLSSecret_checksum_witness :
    firstPass.2.1.Status.RepoTLSChecksum = hexEncode (sha256 (fooBytes ++ barBytes)) ∧
    secondPass.2.1.Status.RepoTLSChecksum = hexEncode (sha256 (fooBytes ++ barBytes)) ∧
    thirdPass.2.1.Status.RepoTLSChecksum = hexEncode (sha256 (barBytes ++ barBytes)) :=
  ⟨reconcileRepoServerTLSSecret_checksum exampleCR
      { certificate := fooBytes, privateKey := barBytes } "marker-1" noUpdateError
      exampleDependents (by decide),
   reconcileRepoServerTLSSecret_checksum firstPass.2.1
      { certificate := fooBytes, privateKey := barBytes } "marker-2" noUpdateError
      firstPass.2.2 (by decide),
   reconcileRepoServerTLSSecret_checksum secondPass.2.1
      { certificate := barBytes, privateKey := barBytes } "marker-3" noUpdateError
      secondPass.2.2 (by decide)⟩

/-! ### What the callers of the operations can rely on -/

/-- The three operations other than the role operation return the error of
`SetControllerReference` and write nothing: the service account and the
deployment on their create path, the role binding on both paths. -/
theorem owner_reference_failure_returned_by_siblings (d : Deps) (r : ReconcileArgoCD)
    (getenv : String → String) (cr : ArgoCD) (role : Role) (sa : ServiceAccount) (w : World)
    (e notFound : GoError) (resources : ResourceRequirements) (hnf : IsNotFound notFound = true)
    (hres : getApplicationSetResources cr = some resources) :
    (FetchObject r.client w cr.Namespace
        (d.newServiceAccountWithName "applicationset-controller" cr).ObjectMeta.Name
        (serviceAccountForRead d cr) = Except.error notFound →
      r.SetControllerReference cr (setAppSetLabels
        (d.newServiceAccountWithName "applicationset-controller" cr).ObjectMeta)
          = Except.error e →
      reconcileApplicationSetServiceAccount d r cr w = ((none, some e), w)) ∧
    (r.client.Get w cr.Namespace
        (d.newRoleBindingWithname "applicationset-controller" cr).ObjectMeta.Name
        (d.newRoleBindingWithname "applicationset-controller" cr) = Except.error notFound →
      r.SetControllerReference cr (setAppSetLabels
        (d.newRoleBindingWithname "applicationset-controller" cr).ObjectMeta)
          = Except.error e →
      reconcileApplicationSetRoleBinding d r cr role sa w = (some e, w)) ∧
    (∀ existing : RoleBinding, r.client.Get w cr.Namespace
        (d.newRoleBindingWithname "applicationset-controller" cr).ObjectMeta.Name
        (d.newRoleBindingWithname "applicationset-controller" cr) = Except.ok existing →
      r.SetControllerReference cr (setAppSetLabels existing.ObjectMeta) = Except.error e →
      reconcileApplicationSetRoleBinding d r cr role sa w = (some e, w)) ∧
    (FetchObject r.client w cr.Namespace
        (d.newDeploymentWithSuffix "applicationset-controller" "controller" cr).ObjectMeta.Name
        (d.newDeploymentWithSuffix "applicationset-controller" "controller" cr)
          = Except.error notFound →
      r.SetControllerReference cr (setAppSetLabels
        (d.newDeploymentWithSuffix "applicationset-controller" "controller" cr).ObjectMeta)
          = Except.error e →
      reconcileApplicationSetDeployment d r getenv cr sa w = (Outcome.returned (some e), w)) := by
  refine ⟨?_, ?_, ?_, ?_⟩
  · intro hget href
    have hget' : FetchObject r.client w cr.Namespace
        (setAppSetLabels
          (d.newServiceAccountWithName "applicationset-controller" cr).ObjectMeta).Name
        (ServiceAccount.mk (setAppSetLabels
          (d.newServiceAccountWithName "applicationset-controller" cr).ObjectMeta))
        = Except.error notFound := hget
    simp only [reconcileApplicationSetServiceAccount, hget', hnf, href]
    rfl
  · intro hget href
    simp only [reconcileApplicationSetRoleBinding, hget, hnf, Bool.true_eq_false, if_false, href]
  · intro existing hget href
    simp only [reconcileApplicationSetRoleBinding, hget, href]
  · intro hget href
    simp only [reconcileApplicationSetDeployment, hres, hget, IsObjectFound, hnf, if_true,
      Bool.false_eq_true, if_false, applicationSetDeployment_objectMeta, href]

/-- The service-account operation never returns a nil service account together
with a nil error. -/
theorem reconcileApplicationSetServiceAccount_not_nil (d : Deps) (r : ReconcileArgoCD)
    (cr : ArgoCD) (w w' : World) :
    reconcileApplicationSetServiceAccount d r cr w ≠ ((none, none), w') := by
  intro h
  unfold reconcileApplicationSetServiceAccount at h
  simp only at h
  split at h
  · simp at h
  · split at h
    · simp at h
    · split at h
      · simp at h
      · split at h <;> simp at h

/-- The role operation never returns a nil role together with a nil error. -/
theorem reconcileApplicationSetRole_not_nil (d : Deps) (r : ReconcileArgoCD) (cr : ArgoCD)
    (w w' : World) : reconcileApplicationSetRole d r cr w ≠ ((none, none), w') := by
  intro h
  unfold reconcileApplicationSetRole at h
  simp only at h
  split at h
  · split at h <;> simp at h
  · simp at h

end Argocd
